import Mathlib

/-!
# Verification of the linkedin-ai-sync duplicate-detection pipeline

Shallow embedding of the Python duplicate-detection pipeline
(`duplicate_detection_pipeline.py`, `fast_duplicate_pipeline.py`,
`duplicate_finder.py`, `sync/ai_duplicate_detection.py`).

Modelling conventions:
* Python `str` is modelled as `List Char` (a sequence of Unicode code points).
* Python floats are modelled as exact rationals `ℚ` (scores are small sums
  and products of rationals).
* Python `None` is modelled with `Option`.
* Contact dictionaries are modelled as structures whose string fields default
  to the empty string, mirroring `d.get(key, '')`.
* The AI agent (`pydantic_ai` / Ollama network call) is modelled as an oracle
  parameter; a raised exception is an `Except.error` value.
* Scanning string routines are written with structural recursion (an
  accumulator, or a fuel argument initialised to the string length, which
  strictly bounds the number of scanning steps), so that every definition
  evaluates inside the kernel.
-/

/-- A Python string: a sequence of Unicode code points. -/
abbrev Str := List Char

/-- Characters treated as whitespace by Python `str.strip` / `str.split` /
regex `\s` in the ASCII range: space, tab, newline, carriage return,
vertical tab, form feed. -/
def isPySpace (c : Char) : Bool :=
  c = ' ' || c = '\t' || c = '\n' || c = '\r' || c.toNat = 11 || c.toNat = 12

/-- Python `str.lower` (ASCII range; the repository lower-cases either plain
ASCII data or text that is transliterated by `unidecode`). `Char.toLower`
is exactly the ASCII lower-casing Python performs on such characters. -/
def pyLower (s : Str) : Str := s.map Char.toLower

/-- Python `str.lstrip()`. -/
def pyLstrip (s : Str) : Str := s.dropWhile isPySpace

/-- Python `str.rstrip()`. -/
def pyRstrip (s : Str) : Str := ((s.reverse).dropWhile isPySpace).reverse

/-- Python `str.strip()`: drop leading and trailing whitespace. -/
def pyStrip (s : Str) : Str := pyRstrip (pyLstrip s)

/-- Model of `unidecode.unidecode` on one character: the identity on the
ASCII range (documented behaviour of the library) together with a table of
transliterations for Latin diacritics occurring in the repository's data;
unmapped code points transliterate to the empty string, as the library
does for unknown characters. -/
def unidecodeChar (c : Char) : Str :=
  if c.toNat < 128 then [c]
  else if c = 'ä' then ['a', 'e']
  else if c = 'ö' then ['o', 'e']
  else if c = 'ü' then ['u', 'e']
  else if c = 'ß' then ['s', 's']
  else if c = 'é' then ['e']
  else if c = 'è' then ['e']
  else if c = 'á' then ['a']
  else if c = 'à' then ['a']
  else if c = 'ç' then ['c']
  else []

/-- Model of `unidecode.unidecode` on a string. -/
def unidecodeStr (s : Str) : Str := s.flatMap unidecodeChar

/-- Worker for `wordsOf`: `cur` holds the current word, reversed. -/
def wordsOfAux (cur : Str) : Str → List Str
  | [] => if cur = [] then [] else [cur.reverse]
  | c :: rest =>
    if isPySpace c then
      if cur = [] then wordsOfAux [] rest else cur.reverse :: wordsOfAux [] rest
    else wordsOfAux (c :: cur) rest

/-- Python `s.split()` (no separator): split on runs of whitespace,
dropping empty parts. -/
def wordsOf (s : Str) : List Str := wordsOfAux [] s

/-- Worker for `pyReplace`; the fuel bounds the number of scanning steps
(each step consumes at least one character). -/
def pyReplaceAux (pat rep : Str) : Nat → Str → Str
  | 0, s => s
  | _ + 1, [] => []
  | fuel + 1, c :: rest =>
    if pat ≠ [] ∧ pat.isPrefixOf (c :: rest) then
      rep ++ pyReplaceAux pat rep fuel ((c :: rest).drop pat.length)
    else
      c :: pyReplaceAux pat rep fuel rest

/-- Python `s.replace(pat, rep)` for non-empty `pat`: replace all
non-overlapping occurrences, scanning left to right and continuing after
each replacement (for `pat = ''` we return `s`; the pipeline never calls
`replace` with an empty pattern). -/
def pyReplace (pat rep s : Str) : Str := pyReplaceAux pat rep s.length s

/-- Split off the first occurrence of `sep` in `s`: returns
`some (before, after)` where `s = before ++ sep ++ after` for the leftmost
occurrence, or `none` if `sep` does not occur. -/
def splitFirst (sep : Str) : Str → Option (Str × Str)
  | [] => none
  | c :: rest =>
    if sep.isPrefixOf (c :: rest) then some ([], (c :: rest).drop sep.length)
    else
      match splitFirst sep rest with
      | some (pre, post) => some (c :: pre, post)
      | none => none

/-- Worker for `lastSplitPart`; each iteration moves past one separator
occurrence, so the fuel (the string length) bounds the iteration count. -/
def lastSplitPartAux (sep : Str) : Nat → Str → Str
  | 0, s => s
  | fuel + 1, s =>
    match splitFirst sep s with
    | some (_, post) => lastSplitPartAux sep fuel post
    | none => s

/-- Python `s.split(sep)[-1]` for non-empty `sep`: the text after the last
separator occurrence under Python's left-to-right non-overlapping scan
(`s` itself when `sep` does not occur). -/
def lastSplitPart (sep s : Str) : Str :=
  if sep = [] then s else lastSplitPartAux sep s.length s

/-- Python `pat in s` (substring test). -/
def strContains (s pat : Str) : Bool :=
  if pat = [] then true else (splitFirst pat s).isSome

/-- Python regex `\w` (ASCII range): letters, digits, underscore. -/
def isWordChar (c : Char) : Bool := c.isAlphanum || c = '_'

/-- Worker for `collapseWs`: `inRun` records whether the previous character
was whitespace (already emitted as the single space of the current run). -/
def collapseWsAux (inRun : Bool) : Str → Str
  | [] => []
  | c :: rest =>
    if isPySpace c then
      if inRun then collapseWsAux true rest else ' ' :: collapseWsAux true rest
    else c :: collapseWsAux false rest

/-- Python `re.sub(r'\s+', ' ', s)`: collapse every whitespace run to a
single space. -/
def collapseWs (s : Str) : Str := collapseWsAux false s

/-- The honorific alternatives of the regexes `^(dr|prof|mr|mrs|ms)` and
`\b(dr|prof|mr|mrs|ms)\.\s*`, in alternation order. -/
def honorifics : List Str :=
  ["dr".data, "prof".data, "mr".data, "mrs".data, "ms".data]

/-- The corporate-suffix alternatives `(gmbh|ag|ltd|inc|corp|llc)`, in
alternation order. -/
def corpAlts : List Str :=
  ["gmbh".data, "ag".data, "ltd".data, "inc".data, "corp".data, "llc".data]

/-- `re.sub(r'^(dr|prof|mr|mrs|ms)', '', s)`: the anchored pattern matches
at most once, at position 0, taking the first alternative (in alternation
order) that is a prefix. -/
def stripHonorificHead (s : Str) : Str :=
  match honorifics.find? (fun a => a.isPrefixOf s) with
  | some a => s.drop a.length
  | none => s

/-- `re.sub(r'(gmbh|ag|ltd|inc|corp|llc)$', '', s)`: the engine scans for
the leftmost match ending at the end of the string, i.e. it removes the
longest alternative that is a suffix (alternatives listed by decreasing
length; equal-length alternatives matching the same suffix would be equal). -/
def stripCorpTail (s : Str) : Str :=
  match ["gmbh".data, "corp".data, "ltd".data, "inc".data, "llc".data,
      "ag".data].find? (fun a => a.isSuffixOf s) with
  | some a => s.take (s.length - a.length)
  | none => s

/-- Length of a `\b(dr|prof|mr|mrs|ms)\.\s*` match starting at the current
position (the word boundary to the left is checked by the caller): the
first alternative that is a prefix and is followed by a literal dot, plus
the dot, plus the greedy run of whitespace. -/
def honorificDotMatch (s : Str) : Option Nat :=
  (honorifics.find?
    (fun a => a.isPrefixOf s && ((s.drop a.length).head? == some '.'))).map
    (fun a => a.length + 1 + ((s.drop (a.length + 1)).takeWhile isPySpace).length)

/-- `\b` to the right of a corporate-suffix match: end of string or a
non-word character. -/
def wordBoundaryAfter (s : Str) : Bool :=
  match s.head? with
  | none => true
  | some c => ¬ isWordChar c

/-- Length of a `\b(gmbh|ag|ltd|inc|corp|llc)\b` match starting at the
current position: the first alternative that is a prefix and is followed by
a word boundary (no alternative is a prefix of another, so at most one
matches). -/
def corpWordMatch (s : Str) : Option Nat :=
  (corpAlts.find?
    (fun a => a.isPrefixOf s && wordBoundaryAfter (s.drop a.length))).map
    List.length

/-- Worker for `subHonorificDot`; every step consumes at least one
character, so the fuel (the string length) bounds the step count. -/
def subHonorificDotAux : Nat → Bool → Str → Str
  | 0, _, s => s
  | _ + 1, _, [] => []
  | fuel + 1, prevWord, c :: rest =>
    if prevWord then c :: subHonorificDotAux fuel (isWordChar c) rest
    else
      match honorificDotMatch (c :: rest) with
      | some n => subHonorificDotAux fuel false ((c :: rest).drop n)
      | none => c :: subHonorificDotAux fuel (isWordChar c) rest

/-- `re.sub(r'\b(dr|prof|mr|mrs|ms)\.\s*', '', s)`: remove every
non-overlapping occurrence, scanning left to right.  `prevWord` records
whether the previous character of the original string is a word character
(`\b` holds before an alternative, which starts with a word character, iff
it does not).  After a removal the previous character is the matched dot
or trailing whitespace, not a word character. -/
def subHonorificDot (s : Str) : Str := subHonorificDotAux s.length false s

/-- Worker for `subCorpWord`; every step consumes at least one character,
so the fuel (the string length) bounds the step count. -/
def subCorpWordAux : Nat → Bool → Str → Str
  | 0, _, s => s
  | _ + 1, _, [] => []
  | fuel + 1, prevWord, c :: rest =>
    if prevWord then c :: subCorpWordAux fuel (isWordChar c) rest
    else
      match corpWordMatch (c :: rest) with
      | some n => subCorpWordAux fuel true ((c :: rest).drop n)
      | none => c :: subCorpWordAux fuel (isWordChar c) rest

/-- `re.sub(r'\b(gmbh|ag|ltd|inc|corp|llc)\b', '', s)`: remove every
non-overlapping whole-word occurrence, scanning left to right.  After a
removal the previous original character is the last letter of the matched
word, a word character. -/
def subCorpWord (s : Str) : Str := subCorpWordAux s.length false s

namespace BlockingEngine

/-- `BlockingEngine.normalize_for_blocking` (duplicate_detection_pipeline.py):
lower-case and transliterate, keep only `[a-z0-9]`, strip one honorific
prefix and one corporate suffix, and strip.  Blank input yields the empty
string. -/
def normalize_for_blocking (text : Str) : Str :=
  if text = [] ∨ pyStrip text = [] then []
  else
    let t1 := unidecodeStr (pyLower text)
    let t2 := t1.filter
      (fun c => decide (('a' ≤ c ∧ c ≤ 'z') ∨ ('0' ≤ c ∧ c ≤ '9')))
    let t3 := stripHonorificHead t2
    let t4 := stripCorpTail t3
    pyStrip t4

/-- `BlockingEngine.extract_email_domain`: `email.split('@')[1].lower().strip()`,
i.e. the text between the first `@` and the following `@` (if any); empty
when the email is empty or has no `@`. -/
def extract_email_domain (email : Str) : Str :=
  if email = [] ∨ ¬ strContains email ['@'] then []
  else
    pyStrip (pyLower (((email.dropWhile (fun c => ¬ c = '@')).drop 1).takeWhile
      (fun c => ¬ c = '@')))

end BlockingEngine

namespace FastSimilarityScorer

/-- `FastSimilarityScorer.normalize_text` (fast_duplicate_pipeline.py):
`unidecode(str(text).lower().strip())`, with `''` for falsy input. -/
def normalize_text (text : Str) : Str :=
  if text = [] then [] else unidecodeStr (pyStrip (pyLower text))

end FastSimilarityScorer

namespace DuplicateFinder

/-- `DuplicateFinder.normalize_text` (duplicate_finder.py): lower-case and
transliterate, collapse whitespace and strip, remove honorific-with-dot and
corporate whole-word occurrences, strip; `None` (here `none`) for blank
input or an empty result. -/
def normalize_text (text : Str) : Option Str :=
  if text = [] ∨ pyStrip text = [] then none
  else
    let t1 := unidecodeStr (pyLower text)
    let t2 := pyStrip (collapseWs t1)
    let t3 := subHonorificDot t2
    let t4 := subCorpWord t3
    let r := pyStrip t4
    if r = [] then none else some r

end DuplicateFinder


/-- A LinkedIn contact dictionary; each field models `d.get(key, '')`. -/
structure LinkedInContact where
  full_name : Str := []
  email : Str := []
  current_position : Str := []
  profile_url : Str := []
deriving DecidableEq

/-- A CRM contact dictionary; each field models `d.get(key, '')`. -/
structure CrmContact where
  fullname : Str := []
  firstname : Str := []
  lastname : Str := []
  emailaddress1 : Str := []
  companyname : Str := []
  parentcustomerid : Str := []
deriving DecidableEq

/-- A blocking-index entry: the Python tuple `('linkedin', i, contact)` or
`('crm', i, contact)`. -/
inductive Entry where
  | linkedin (i : Nat) (c : LinkedInContact)
  | crm (j : Nat) (c : CrmContact)
deriving DecidableEq

/-- A `defaultdict(list)` keyed by strings, in insertion order (Python
dicts preserve insertion order). -/
abbrev Blocks := List (Str × List Entry)

/-- `blocks[key].append(e)` on a `defaultdict(list)`. -/
def addToBlock : Blocks → Str → Entry → Blocks
  | [], k, e => [(k, [e])]
  | (k0, es) :: bs, k, e =>
    if k0 = k then (k0, es ++ [e]) :: bs else (k0, es) :: addToBlock bs k e

/-- `blocks[key]` (the empty list when absent). -/
def entries (bs : Blocks) (k : Str) : List Entry :=
  match bs.find? (fun p => p.1 = k) with
  | some p => p.2
  | none => []

/-- `for i, x in enumerate(xs)` threading an accumulator. -/
def foldIdx {α : Type} (step : Nat → α → Blocks → Blocks) :
    Nat → List α → Blocks → Blocks
  | _, [], bs => bs
  | i, c :: rest, bs => foldIdx step (i + 1) rest (step i c bs)

namespace BlockingEngine

/-- The CRM full-name resolution
`contact.get('fullname', '') or f"{firstname} {lastname}".strip()`. -/
def crmFullName (c : CrmContact) : Str :=
  if c.fullname ≠ [] then c.fullname
  else pyStrip (c.firstname ++ (' ' :: c.lastname))

/-- One LinkedIn iteration of `create_name_blocks`: index under the
normalized full name (length ≥ 3) and under the normalized
`{first}_{last}` pair from the split tokens (both parts length ≥ 2). -/
def nameStepL (i : Nat) (c : LinkedInContact) (bs : Blocks) : Blocks :=
  if c.full_name ≠ [] then
    let normalized := normalize_for_blocking c.full_name
    let bs1 :=
      if 3 ≤ normalized.length then
        addToBlock bs ("name_".data ++ normalized) (.linkedin i c)
      else bs
    let parts := wordsOf c.full_name
    if 2 ≤ parts.length then
      let first := normalize_for_blocking (parts.headD [])
      let last := normalize_for_blocking (parts.getLastD [])
      if 2 ≤ first.length ∧ 2 ≤ last.length then
        addToBlock bs1 ("name_".data ++ first ++ ('_' :: last)) (.linkedin i c)
      else bs1
    else bs1
  else bs

/-- One CRM iteration of `create_name_blocks`. -/
def nameStepC (j : Nat) (c : CrmContact) (bs : Blocks) : Blocks :=
  let full_name := crmFullName c
  if full_name ≠ [] then
    let normalized := normalize_for_blocking full_name
    let bs1 :=
      if 3 ≤ normalized.length then
        addToBlock bs ("name_".data ++ normalized) (.crm j c)
      else bs
    if c.firstname ≠ [] ∧ c.lastname ≠ [] then
      let first := normalize_for_blocking c.firstname
      let last := normalize_for_blocking c.lastname
      if 2 ≤ first.length ∧ 2 ≤ last.length then
        addToBlock bs1 ("name_".data ++ first ++ ('_' :: last)) (.crm j c)
      else bs1
    else bs1
  else bs

/-- `BlockingEngine.create_name_blocks`. -/
def create_name_blocks (L : List LinkedInContact) (C : List CrmContact) : Blocks :=
  foldIdx nameStepC 0 C (foldIdx nameStepL 0 L [])

/-- The free-webmail check of `create_email_blocks`:
`domain.endswith(('.gmail.com', '.outlook.com', '.yahoo.com', '.hotmail.com'))`. -/
def isFreeWebmailTail (domain : Str) : Bool :=
  (".gmail.com".data).isSuffixOf domain ||
  (".outlook.com".data).isSuffixOf domain ||
  (".yahoo.com".data).isSuffixOf domain ||
  (".hotmail.com".data).isSuffixOf domain

/-- One LinkedIn iteration of `create_email_blocks`: index under the
lower-cased exact email, and under the email domain unless the domain
check excludes it. -/
def emailStepL (i : Nat) (c : LinkedInContact) (bs : Blocks) : Blocks :=
  if c.email ≠ [] ∧ strContains c.email ['@'] then
    let bs1 := addToBlock bs ("email_".data ++ pyLower c.email) (.linkedin i c)
    let domain := extract_email_domain c.email
    if domain ≠ [] ∧ ¬ isFreeWebmailTail domain then
      addToBlock bs1 ("domain_".data ++ domain) (.linkedin i c)
    else bs1
  else bs

/-- One CRM iteration of `create_email_blocks`. -/
def emailStepC (j : Nat) (c : CrmContact) (bs : Blocks) : Blocks :=
  if c.emailaddress1 ≠ [] ∧ strContains c.emailaddress1 ['@'] then
    let bs1 := addToBlock bs ("email_".data ++ pyLower c.emailaddress1) (.crm j c)
    let domain := extract_email_domain c.emailaddress1
    if domain ≠ [] ∧ ¬ isFreeWebmailTail domain then
      addToBlock bs1 ("domain_".data ++ domain) (.crm j c)
    else bs1
  else bs

/-- `BlockingEngine.create_email_blocks`. -/
def create_email_blocks (L : List LinkedInContact) (C : List CrmContact) : Blocks :=
  foldIdx emailStepC 0 C (foldIdx emailStepL 0 L [])

/-- One LinkedIn iteration of `create_company_blocks`: the company is the
text after the last `' at '` of `current_position`. -/
def companyStepL (i : Nat) (c : LinkedInContact) (bs : Blocks) : Blocks :=
  if c.current_position ≠ [] ∧ strContains c.current_position " at ".data then
    let company := lastSplitPart " at ".data c.current_position
    let normalized := normalize_for_blocking company
    if 3 ≤ normalized.length then
      addToBlock bs ("company_".data ++ normalized) (.linkedin i c)
    else bs
  else bs

/-- One CRM iteration of `create_company_blocks`:
`contact.get('companyname', '') or contact.get('parentcustomerid', '')`. -/
def companyStepC (j : Nat) (c : CrmContact) (bs : Blocks) : Blocks :=
  let company := if c.companyname ≠ [] then c.companyname else c.parentcustomerid
  if company ≠ [] then
    let normalized := normalize_for_blocking company
    if 3 ≤ normalized.length then
      addToBlock bs ("company_".data ++ normalized) (.crm j c)
    else bs
  else bs

/-- `BlockingEngine.create_company_blocks`. -/
def create_company_blocks (L : List LinkedInContact) (C : List CrmContact) : Blocks :=
  foldIdx companyStepC 0 C (foldIdx companyStepL 0 L [])

/-- The `all_blocks` dict of `generate_candidate_pairs`: the three block
dicts with their keys re-prefixed, concatenated in update order (the three
key groups are disjoint because of the distinct prefixes, so `dict.update`
only appends). -/
def allBlocks (L : List LinkedInContact) (C : List CrmContact) : Blocks :=
  (create_name_blocks L C).map (fun p => ("name_".data ++ p.1, p.2)) ++
  (create_email_blocks L C).map (fun p => ("email_".data ++ p.1, p.2)) ++
  (create_company_blocks L C).map (fun p => ("company_".data ++ p.1, p.2))

end BlockingEngine

/-- A candidate duplicate pair.  `li` and `ci` carry the loop indices of
the two records — the source's `pair_id = (linkedin_record[1], crm_record[1])`
used for deduplication — so that pair identity is observable. -/
structure CandidatePair where
  li : Nat
  ci : Nat
  linkedin_contact : LinkedInContact
  crm_contact : CrmContact
  blocking_reason : Str
  similarity_score : ℚ := 0
deriving DecidableEq

namespace BlockingEngine

/-- `[r for r in records if r[0] == 'linkedin']`, with the tuple fields
`(r[1], r[2])` extracted. -/
def linkedinEntries (recs : List Entry) : List (Nat × LinkedInContact) :=
  recs.filterMap (fun e => match e with
    | .linkedin i c => some (i, c)
    | .crm _ _ => none)

/-- `[r for r in records if r[0] == 'crm']`. -/
def crmEntries (recs : List Entry) : List (Nat × CrmContact) :=
  recs.filterMap (fun e => match e with
    | .linkedin _ _ => none
    | .crm j c => some (j, c))

/-- The mutable loop state of `generate_candidate_pairs`: the `seen_pairs`
set and the `candidate_pairs` output list. -/
structure GenState where
  seen : List (Nat × Nat)
  out : List CandidatePair
deriving DecidableEq

/-- The body of the innermost loop of `generate_candidate_pairs`: emit the
pair unless its `pair_id` was already seen. -/
def emitOne (key : Str) (l : Nat × LinkedInContact) (c : Nat × CrmContact)
    (st : GenState) : GenState :=
  if (l.1, c.1) ∈ st.seen then st
  else ⟨st.seen ++ [(l.1, c.1)], st.out ++ [⟨l.1, c.1, l.2, c.2, key, 0⟩]⟩

/-- Process one block of `generate_candidate_pairs`: skip blocks with fewer
than two records, otherwise emit the LinkedIn × CRM cross product. -/
def emitBlock (key : Str) (recs : List Entry) (st : GenState) : GenState :=
  if recs.length < 2 then st
  else
    (linkedinEntries recs).foldl
      (fun st1 l => (crmEntries recs).foldl
        (fun st2 c => emitOne key l c st2) st1) st

/-- The block loop of `generate_candidate_pairs`. -/
def genFromBlocks (blocks : Blocks) : GenState :=
  blocks.foldl (fun st p => emitBlock p.1 p.2 st) ⟨[], []⟩

/-- `BlockingEngine.generate_candidate_pairs`. -/
def generate_candidate_pairs (L : List LinkedInContact) (C : List CrmContact) :
    List CandidatePair :=
  (genFromBlocks (allBlocks L C)).out

end BlockingEngine



namespace FastSimilarityScorer

/-- `FastSimilarityScorer.name_similarity`: exact match after
normalization, else Jaccard similarity of the word sets with a capped
bonus of 0.2 per shared word longer than two characters. -/
def name_similarity (name1 name2 : Str) : ℚ :=
  if name1 = [] ∨ name2 = [] then 0
  else
    let n1 := normalize_text name1
    let n2 := normalize_text name2
    if n1 = n2 then 1
    else
      let words1 := (wordsOf n1).toFinset
      let words2 := (wordsOf n2).toFinset
      if words1 = ∅ ∨ words2 = ∅ then 0
      else
        let jaccard : ℚ :=
          ((words1 ∩ words2).card : ℚ) / ((words1 ∪ words2).card : ℚ)
        let significant := ((words1 ∩ words2).filter
          (fun w => 2 < w.length)).card
        if 0 < significant then min 1 (jaccard + 0.2 * significant)
        else jaccard

/-- `FastSimilarityScorer.email_similarity`: 1.0 for an exact match, 0.8
for the same username on a different domain, 0.6 when one username
contains the other, else 0. -/
def email_similarity (email1 email2 : Str) : ℚ :=
  if email1 = [] ∨ email2 = [] then 0
  else
    let e1 := pyStrip (pyLower email1)
    let e2 := pyStrip (pyLower email2)
    if e1 = e2 then 1
    else
      let user1 := e1.takeWhile (fun c => ¬ c = '@')
      let user2 := e2.takeWhile (fun c => ¬ c = '@')
      if user1 = user2 then 0.8
      else if strContains user2 user1 || strContains user1 user2 then 0.6
      else 0

/-- The suffix-removal loop of `company_similarity`: for each suffix,
`s.replace(f' {sfx}', '').replace(f'{sfx} ', '')`. -/
def stripCompanySfx (s : Str) : Str :=
  ["gmbh".data, "ag".data, "ltd".data, "inc".data, "corp".data, "llc".data,
      "sa".data, "bv".data].foldl
    (fun acc sfx => pyReplace (sfx ++ [' ']) [] (pyReplace (' ' :: sfx) [] acc)) s

/-- `FastSimilarityScorer.company_similarity`: exact match after
normalization and suffix removal, 0.8 for substring containment, else
Jaccard word overlap. -/
def company_similarity (company1 company2 : Str) : ℚ :=
  if company1 = [] ∨ company2 = [] then 0
  else
    let c1 := pyStrip (stripCompanySfx (normalize_text company1))
    let c2 := pyStrip (stripCompanySfx (normalize_text company2))
    if c1 = c2 then 1
    else if strContains c2 c1 || strContains c1 c2 then 0.8
    else
      let words1 := (wordsOf c1).toFinset
      let words2 := (wordsOf c2).toFinset
      if words1 = ∅ ∨ words2 = ∅ then 0
      else ((words1 ∩ words2).card : ℚ) / ((words1 ∪ words2).card : ℚ)

end FastSimilarityScorer

/-- The `match_details` dict of `score_candidate_pair`. -/
structure MatchDetails where
  name_score : ℚ
  email_score : ℚ
  company_score : ℚ
  linkedin_name : Str
  crm_name : Str
  linkedin_email : Str
  crm_email : Str
  linkedin_company : Str
  crm_company : Str
deriving DecidableEq

/-- A candidate pair with similarity score (`ScoredCandidate` dataclass). -/
structure ScoredCandidate where
  linkedin_contact : LinkedInContact
  crm_contact : CrmContact
  blocking_reason : Str
  similarity_score : ℚ
  match_details : MatchDetails
deriving DecidableEq

namespace FastSimilarityScorer

/-- `FastSimilarityScorer.score_candidate_pair`: weighted sum of the three
sub-scores (weights 0.4 / 0.4 / 0.2) with a `+0.3` boost, capped at 1.0,
when the email sub-score is an exact match. -/
def score_candidate_pair (linkedin_contact : LinkedInContact)
    (crm_contact : CrmContact) : ScoredCandidate :=
  let linkedin_name := linkedin_contact.full_name
  let linkedin_email := linkedin_contact.email
  let linkedin_company :=
    if linkedin_contact.current_position ≠ [] ∧
        strContains linkedin_contact.current_position " at ".data then
      lastSplitPart " at ".data linkedin_contact.current_position
    else []
  let crm_name :=
    if crm_contact.fullname ≠ [] then crm_contact.fullname
    else pyStrip (crm_contact.firstname ++ (' ' :: crm_contact.lastname))
  let crm_email := crm_contact.emailaddress1
  let crm_company := crm_contact.companyname
  let name_score := name_similarity linkedin_name crm_name
  let email_score := email_similarity linkedin_email crm_email
  let company_score := company_similarity linkedin_company crm_company
  let overall_score :=
    name_score * 0.4 + email_score * 0.4 + company_score * 0.2
  let overall_score :=
    if email_score = 1 then min 1 (overall_score + 0.3) else overall_score
  { linkedin_contact := linkedin_contact
    crm_contact := crm_contact
    blocking_reason := []
    similarity_score := overall_score
    match_details :=
      { name_score := name_score
        email_score := email_score
        company_score := company_score
        linkedin_name := linkedin_name
        crm_name := crm_name
        linkedin_email := linkedin_email
        crm_email := crm_email
        linkedin_company := linkedin_company
        crm_company := crm_company } }

end FastSimilarityScorer



/-- `MatchConfidence` (sync/ai_duplicate_detection.py). -/
inductive MatchConfidence where
  | high
  | medium
  | low
  | none
deriving DecidableEq

/-- `ComparisonResult` (sync/ai_duplicate_detection.py): the structured
verdict of one AI comparison. -/
structure ComparisonResult where
  is_duplicate : Bool
  confidence : MatchConfidence
  similarity_score : ℚ
  reasoning : Str
  matching_fields : List Str
  conflicting_fields : List Str
deriving DecidableEq

namespace AIDuplicateDetector

/-- `AIDuplicateDetector.compare_contacts`: run the agent and return its
structured output; on any exception return the fallback
non-duplicate / none-confidence / score-0 result.  `agentResult` models
`await self.agent.run(prompt)` — `ok` is the structured output, `error`
is a raised exception with its message. -/
def compare_contacts (agentResult : Except Str ComparisonResult) :
    ComparisonResult :=
  match agentResult with
  | .ok r => r
  | .error e =>
    { is_duplicate := false
      confidence := .none
      similarity_score := 0
      reasoning := "Error during AI analysis: ".data ++ e
      matching_fields := []
      conflicting_fields := [] }

end AIDuplicateDetector

/-- The per-call behaviour of the AI-verification loop: for the `i`-th
verified pair, the comparison either returns a verdict or raises. -/
abbrev AIOracle := Nat → LinkedInContact → CrmContact → Except Str ComparisonResult

namespace FastDuplicateDetector

/-- The configuration attributes set in `FastDuplicateDetector.__init__`
(externally tunable; the listed values are the source defaults). -/
structure Config where
  fast_threshold_high : ℚ := 0.8
  fast_threshold_medium : ℚ := 0.6
  max_ai_comparisons : Nat := 1000
deriving DecidableEq

/-- The scored list of `_run_scoring_stage`, sorted by descending
similarity score (Python's stable `list.sort(key=..., reverse=True)`). -/
def scoredSorted (candidate_pairs : List CandidatePair) : List ScoredCandidate :=
  let scored := candidate_pairs.map (fun pair =>
    let s := FastSimilarityScorer.score_candidate_pair
      pair.linkedin_contact pair.crm_contact
    { s with blocking_reason := pair.blocking_reason })
  scored.insertionSort (fun a b => b.similarity_score ≤ a.similarity_score)

/-- The dict returned by `_run_scoring_stage` (`top_10_matches`, a display
projection of the first ten sorted entries, is omitted). -/
structure ScoringResults where
  total_pairs_scored : Nat
  high_confidence_pairs : List ScoredCandidate
  medium_confidence_pairs : List ScoredCandidate
  low_confidence_pairs : List ScoredCandidate
  fast_threshold_high : ℚ
  fast_threshold_medium : ℚ
deriving DecidableEq

/-- `FastDuplicateDetector._run_scoring_stage`: score all candidates, sort
by descending score, and partition by the two thresholds. -/
def run_scoring_stage (cfg : Config) (candidate_pairs : List CandidatePair) :
    ScoringResults :=
  let sorted := scoredSorted candidate_pairs
  { total_pairs_scored := sorted.length
    high_confidence_pairs := sorted.filter
      (fun p => cfg.fast_threshold_high ≤ p.similarity_score)
    medium_confidence_pairs := sorted.filter
      (fun p => cfg.fast_threshold_medium ≤ p.similarity_score ∧
        p.similarity_score < cfg.fast_threshold_high)
    low_confidence_pairs := sorted.filter
      (fun p => p.similarity_score < cfg.fast_threshold_medium)
    fast_threshold_high := cfg.fast_threshold_high
    fast_threshold_medium := cfg.fast_threshold_medium }

/-- One `ai_match_data` dict of the fast `_run_ai_stage`
(`original_scored_match` plus the two contacts are carried by the
`ScoredCandidate`). -/
structure AIMatchData where
  original_scored_match : ScoredCandidate
  ai_result : ComparisonResult
  combined_confidence : ℚ
deriving DecidableEq

/-- The `ai_results` dict of `_run_ai_stage`.  `ai_invocations` is
instrumentation counting the `compare_contacts` calls: the loop body
performs exactly one call per iteration, whether or not it raises. -/
structure AIStageResults where
  pairs_processed : Nat
  pairs_skipped : Nat
  high_confidence_auto_accepted : Nat
  medium_confidence_ai_verified : Nat
  ai_confirmations : List AIMatchData
  ai_rejections : List AIMatchData
  ai_invocations : Nat
deriving DecidableEq

/-- The verification loop of `_run_ai_stage`: one `compare_contacts` call
per pair; a raised exception is logged and skipped (`continue`); a verdict
is bucketed into confirmations (duplicate with high or medium confidence)
or rejections. -/
def aiLoop (cmp : AIOracle) : Nat → List ScoredCandidate → AIStageResults →
    AIStageResults
  | _, [], acc => acc
  | i, sp :: rest, acc =>
    let acc1 := { acc with ai_invocations := acc.ai_invocations + 1 }
    match cmp i sp.linkedin_contact sp.crm_contact with
    | .error _ => aiLoop cmp (i + 1) rest acc1
    | .ok ai =>
      let md : AIMatchData :=
        ⟨sp, ai, (sp.similarity_score + ai.similarity_score) / 2⟩
      let acc2 :=
        if ai.is_duplicate ∧ (ai.confidence = .high ∨ ai.confidence = .medium)
        then { acc1 with ai_confirmations := acc1.ai_confirmations ++ [md] }
        else { acc1 with ai_rejections := acc1.ai_rejections ++ [md] }
      aiLoop cmp (i + 1) rest
        { acc2 with pairs_processed := acc2.pairs_processed + 1 }

/-- `FastDuplicateDetector._run_ai_stage`: auto-accept the high tier, cap
the medium tier at `max_ai_comparisons`, record the remainder in
`pairs_skipped`, and verify the capped prefix. -/
def run_ai_stage (cmp : AIOracle) (maxAI : Nat)
    (high_confidence_pairs medium_confidence_pairs : List ScoredCandidate) :
    AIStageResults :=
  let pairs_to_verify := medium_confidence_pairs.take maxAI
  let init : AIStageResults :=
    { pairs_processed := 0
      pairs_skipped := medium_confidence_pairs.length - pairs_to_verify.length
      high_confidence_auto_accepted := high_confidence_pairs.length
      medium_confidence_ai_verified := 0
      ai_confirmations := []
      ai_rejections := []
      ai_invocations := 0 }
  let r := aiLoop cmp 0 pairs_to_verify init
  { r with medium_confidence_ai_verified := r.pairs_processed }

/-- A final-results entry: either a converted high/low-tier scored match
(the dict with `detection_method: 'fast_scoring'`) or an AI match dict. -/
inductive FinalMatch where
  | scored (m : ScoredCandidate)
  | ai (m : AIMatchData)
deriving DecidableEq

/-- The `final_results` dict. -/
structure FinalResults where
  high_confidence_matches : List FinalMatch
  medium_confidence_matches : List FinalMatch
  low_confidence_matches : List FinalMatch
deriving DecidableEq

/-- The `pipeline_stats` dict (wall-clock runtime is not modelled). -/
structure PipelineStats where
  total_linkedin_contacts : Nat
  total_crm_contacts : Nat
  potential_comparisons : Nat
  stages_completed : Nat
  total_matches_found : Nat := 0
  high_confidence_matches : Nat := 0
  medium_confidence_matches : Nat := 0
  low_confidence_matches : Nat := 0
deriving DecidableEq

/-- The `results` dict of `detect_duplicates` (`reduction_factor`, a
display-only float diagnostic, and the timestamp are not modelled; the
stage-2/3 sub-dicts are `none` when the pipeline short-circuits before
them). -/
structure FastResults where
  pipeline_stats : PipelineStats
  candidates_generated : Nat
  stage2 : Option ScoringResults
  stage3 : Option AIStageResults
  final_results : FinalResults
deriving DecidableEq

/-- `FastDuplicateDetector._combine_final_results`: high = converted
high-tier scored matches ++ AI confirmations; medium = AI rejections;
low = the first 100 low-tier scored matches, converted. -/
def combine_final_results (scoring : ScoringResults) (ai : AIStageResults) :
    FinalResults :=
  { high_confidence_matches :=
      scoring.high_confidence_pairs.map FinalMatch.scored ++
        ai.ai_confirmations.map FinalMatch.ai
    medium_confidence_matches := ai.ai_rejections.map FinalMatch.ai
    low_confidence_matches :=
      (scoring.low_confidence_pairs.take 100).map FinalMatch.scored }

/-- `FastDuplicateDetector.detect_duplicates`: blocking, scoring,
selective AI verification, and final merge; short-circuits with an empty
result when blocking finds no candidates. -/
def detect_duplicates (cmp : AIOracle) (cfg : Config)
    (linkedin_contacts : List LinkedInContact)
    (crm_contacts : List CrmContact) : FastResults :=
  let candidate_pairs :=
    BlockingEngine.generate_candidate_pairs linkedin_contacts crm_contacts
  let stats1 : PipelineStats :=
    { total_linkedin_contacts := linkedin_contacts.length
      total_crm_contacts := crm_contacts.length
      potential_comparisons := linkedin_contacts.length * crm_contacts.length
      stages_completed := 1 }
  if candidate_pairs = [] then
    { pipeline_stats := stats1
      candidates_generated := 0
      stage2 := Option.none
      stage3 := Option.none
      final_results := ⟨[], [], []⟩ }
  else
    let scoring := run_scoring_stage cfg candidate_pairs
    let ai := run_ai_stage cmp cfg.max_ai_comparisons
      scoring.high_confidence_pairs scoring.medium_confidence_pairs
    let final := combine_final_results scoring ai
    { pipeline_stats :=
        { stats1 with
          stages_completed := 3
          total_matches_found := final.high_confidence_matches.length +
            final.medium_confidence_matches.length +
            final.low_confidence_matches.length
          high_confidence_matches := final.high_confidence_matches.length
          medium_confidence_matches := final.medium_confidence_matches.length
          low_confidence_matches := final.low_confidence_matches.length }
      candidates_generated := candidate_pairs.length
      stage2 := some scoring
      stage3 := some ai
      final_results := final }

/-- The `ai_rejections` of stage 3 (empty when the stage did not run). -/
def stage3Rejections (r : FastResults) : List AIMatchData :=
  match r.stage3 with
  | some s => s.ai_rejections
  | Option.none => []

/-- The `ai_confirmations` of stage 3 (empty when the stage did not run). -/
def stage3Confirmations (r : FastResults) : List AIMatchData :=
  match r.stage3 with
  | some s => s.ai_confirmations
  | Option.none => []

/-- The number of `compare_contacts` invocations of stage 3 (zero when the
stage did not run). -/
def stage3Invocations (r : FastResults) : Nat :=
  match r.stage3 with
  | some s => s.ai_invocations
  | Option.none => 0

end FastDuplicateDetector

namespace MultiStageDuplicateDetector

/-- The configuration attributes set in `MultiStageDuplicateDetector.__init__`. -/
structure Config where
  dedupe_threshold_high : ℚ := 0.8
  dedupe_threshold_medium : ℚ := 0.5
  max_ai_comparisons : Nat := 10000
deriving DecidableEq

/-- A match dict produced by the dedupe stage, as consumed by the
multi-stage `_run_ai_stage`: its confidence score and the two source
records (`match['linkedin_profile']['source_data']`,
`match['crm_contact']['source_data']`). -/
structure DedupeMatch where
  confidence_score : ℚ
  linkedin_source : LinkedInContact
  crm_source : CrmContact
deriving DecidableEq

/-- One `ai_match_data` dict of the multi-stage `_run_ai_stage`. -/
structure MultiAIMatchData where
  original_dedupe_match : DedupeMatch
  ai_result : ComparisonResult
  combined_confidence : ℚ
deriving DecidableEq

/-- The `ai_results` dict of the multi-stage `_run_ai_stage`;
`ai_invocations` is instrumentation counting `compare_contacts` calls. -/
structure MultiAIStageResults where
  pairs_processed : Nat
  pairs_skipped : Nat
  high_confidence_auto_accepted : Nat
  medium_confidence_ai_verified : Nat
  ai_confirmations : List MultiAIMatchData
  ai_rejections : List MultiAIMatchData
  ai_invocations : Nat
deriving DecidableEq

/-- The verification loop of the multi-stage `_run_ai_stage`. -/
def aiLoop (cmp : AIOracle) : Nat → List DedupeMatch → MultiAIStageResults →
    MultiAIStageResults
  | _, [], acc => acc
  | i, m :: rest, acc =>
    let acc1 := { acc with ai_invocations := acc.ai_invocations + 1 }
    match cmp i m.linkedin_source m.crm_source with
    | .error _ => aiLoop cmp (i + 1) rest acc1
    | .ok ai =>
      let md : MultiAIMatchData :=
        ⟨m, ai, (m.confidence_score + ai.similarity_score) / 2⟩
      let acc2 :=
        if ai.is_duplicate ∧ (ai.confidence = .high ∨ ai.confidence = .medium)
        then { acc1 with ai_confirmations := acc1.ai_confirmations ++ [md] }
        else { acc1 with ai_rejections := acc1.ai_rejections ++ [md] }
      aiLoop cmp (i + 1) rest
        { acc2 with pairs_processed := acc2.pairs_processed + 1 }

/-- `MultiStageDuplicateDetector._run_ai_stage`: auto-accept the high
tier, cap the medium tier at `max_ai_comparisons`, record the remainder in
`pairs_skipped`, and verify the capped prefix. -/
def run_ai_stage (cmp : AIOracle) (maxAI : Nat)
    (high_confidence_pairs medium_confidence_pairs : List DedupeMatch) :
    MultiAIStageResults :=
  let pairs_to_verify := medium_confidence_pairs.take maxAI
  let init : MultiAIStageResults :=
    { pairs_processed := 0
      pairs_skipped := medium_confidence_pairs.length - pairs_to_verify.length
      high_confidence_auto_accepted := high_confidence_pairs.length
      medium_confidence_ai_verified := 0
      ai_confirmations := []
      ai_rejections := []
      ai_invocations := 0 }
  let r := aiLoop cmp 0 pairs_to_verify init
  { r with medium_confidence_ai_verified := r.pairs_processed }

end MultiStageDuplicateDetector

/-- `compare_contacts` layered over an agent oracle, as the pipelines call
it: `compare_contacts` itself never raises (it catches every exception), so
the pipeline-level comparison always returns a value. -/
def detectorCmp (agent : AIOracle) : AIOracle :=
  fun i l c => Except.ok (AIDuplicateDetector.compare_contacts (agent i l c))




namespace FastDuplicateDetector

theorem aiLoop_invocations (cmp : AIOracle) :
    ∀ (l : List ScoredCandidate) (i : Nat) (acc : AIStageResults),
    (aiLoop cmp i l acc).ai_invocations = acc.ai_invocations + l.length := by
  intro l
  induction l with
  | nil => intro i acc; simp [aiLoop]
  | cons sp rest ih =>
    intro i acc
    simp only [aiLoop]
    cases cmp i sp.linkedin_contact sp.crm_contact with
    | error e => dsimp only; rw [ih]; simp only [List.length_cons]; omega
    | ok ai =>
      dsimp only
      split_ifs <;> (rw [ih]; simp only [List.length_cons]; omega)

theorem aiLoop_skipped (cmp : AIOracle) :
    ∀ (l : List ScoredCandidate) (i : Nat) (acc : AIStageResults),
    (aiLoop cmp i l acc).pairs_skipped = acc.pairs_skipped := by
  intro l
  induction l with
  | nil => intro i acc; simp [aiLoop]
  | cons sp rest ih =>
    intro i acc
    simp only [aiLoop]
    cases cmp i sp.linkedin_contact sp.crm_contact with
    | error e => dsimp only; rw [ih]
    | ok ai => dsimp only; split_ifs <;> rw [ih]

theorem run_ai_stage_invocations (cmp : AIOracle) (maxAI : Nat)
    (high medium : List ScoredCandidate) :
    (run_ai_stage cmp maxAI high medium).ai_invocations =
      (medium.take maxAI).length := by
  unfold run_ai_stage
  simp only [aiLoop_invocations]
  omega

theorem run_ai_stage_skipped (cmp : AIOracle) (maxAI : Nat)
    (high medium : List ScoredCandidate) :
    (run_ai_stage cmp maxAI high medium).pairs_skipped =
      medium.length - (medium.take maxAI).length := by
  unfold run_ai_stage
  simp only [aiLoop_skipped]

end FastDuplicateDetector

namespace MultiStageDuplicateDetector

theorem multiAiLoop_invocations (cmp : AIOracle) :
    ∀ (l : List DedupeMatch) (i : Nat) (acc : MultiAIStageResults),
    (aiLoop cmp i l acc).ai_invocations = acc.ai_invocations + l.length := by
  intro l
  induction l with
  | nil => intro i acc; simp [aiLoop]
  | cons m rest ih =>
    intro i acc
    simp only [aiLoop]
    cases cmp i m.linkedin_source m.crm_source with
    | error e => dsimp only; rw [ih]; simp only [List.length_cons]; omega
    | ok ai =>
      dsimp only
      split_ifs <;> (rw [ih]; simp only [List.length_cons]; omega)

theorem multiAiLoop_skipped (cmp : AIOracle) :
    ∀ (l : List DedupeMatch) (i : Nat) (acc : MultiAIStageResults),
    (aiLoop cmp i l acc).pairs_skipped = acc.pairs_skipped := by
  intro l
  induction l with
  | nil => intro i acc; simp [aiLoop]
  | cons m rest ih =>
    intro i acc
    simp only [aiLoop]
    cases cmp i m.linkedin_source m.crm_source with
    | error e => dsimp only; rw [ih]
    | ok ai => dsimp only; split_ifs <;> rw [ih]

theorem multi_run_ai_stage_invocations (cmp : AIOracle) (maxAI : Nat)
    (high medium : List DedupeMatch) :
    (run_ai_stage cmp maxAI high medium).ai_invocations =
      (medium.take maxAI).length := by
  unfold run_ai_stage
  simp only [multiAiLoop_invocations]
  omega

theorem multi_run_ai_stage_skipped (cmp : AIOracle) (maxAI : Nat)
    (high medium : List DedupeMatch) :
    (run_ai_stage cmp maxAI high medium).pairs_skipped =
      medium.length - (medium.take maxAI).length := by
  unfold run_ai_stage
  simp only [multiAiLoop_skipped]

end MultiStageDuplicateDetector

namespace FastDuplicateDetector

theorem aiLoop_all_nondup (cmp : AIOracle)
    (hcmp : ∀ i l c, ∃ r, cmp i l c = Except.ok r ∧ r.is_duplicate = false) :
    ∀ (l : List ScoredCandidate) (i : Nat) (acc : AIStageResults),
    (aiLoop cmp i l acc).ai_confirmations = acc.ai_confirmations ∧
    (aiLoop cmp i l acc).ai_rejections.length =
      acc.ai_rejections.length + l.length ∧
    (aiLoop cmp i l acc).pairs_processed = acc.pairs_processed + l.length := by
  intro l
  induction l with
  | nil => intro i acc; simp [aiLoop]
  | cons sp rest ih =>
    intro i acc
    obtain ⟨r, hr, hdup⟩ := hcmp i sp.linkedin_contact sp.crm_contact
    simp only [aiLoop, hr]
    rw [if_neg (by simp [hdup])]
    obtain ⟨h1, h2, h3⟩ := ih (i + 1)
      { acc with
        ai_rejections := acc.ai_rejections ++
          [⟨sp, r, (sp.similarity_score + r.similarity_score) / 2⟩]
        ai_invocations := acc.ai_invocations + 1
        pairs_processed := acc.pairs_processed + 1 }
    refine ⟨?_, ?_, ?_⟩
    · rw [h1]
    · rw [h2]; simp only [List.length_append, List.length_cons,
        List.length_nil]; omega
    · rw [h3]; simp only [List.length_cons]; omega

theorem run_ai_stage_all_nondup (cmp : AIOracle)
    (hcmp : ∀ i l c, ∃ r, cmp i l c = Except.ok r ∧ r.is_duplicate = false)
    (maxAI : Nat) (high medium : List ScoredCandidate) :
    (run_ai_stage cmp maxAI high medium).ai_confirmations = [] ∧
    (run_ai_stage cmp maxAI high medium).ai_rejections.length =
      (medium.take maxAI).length ∧
    (run_ai_stage cmp maxAI high medium).pairs_processed =
      (medium.take maxAI).length := by
  unfold run_ai_stage
  obtain ⟨h1, h2, h3⟩ := aiLoop_all_nondup cmp hcmp (medium.take maxAI) 0
    { pairs_processed := 0
      pairs_skipped := medium.length - (medium.take maxAI).length
      high_confidence_auto_accepted := high.length
      medium_confidence_ai_verified := 0
      ai_confirmations := []
      ai_rejections := []
      ai_invocations := 0 }
  dsimp only
  exact ⟨by simpa using h1, by simpa using h2, by simpa using h3⟩

end FastDuplicateDetector

theorem detectorCmp_all_nondup (agent : AIOracle)
    (hagent : ∀ i l c, ∃ e, agent i l c = Except.error e) :
    ∀ i l c, ∃ r, detectorCmp agent i l c = Except.ok r ∧
      r.is_duplicate = false := by
  intro i l c
  obtain ⟨e, he⟩ := hagent i l c
  exact ⟨_, by rw [detectorCmp, he], rfl⟩

theorem filter_three_perm {α : Type} (p q r : α → Bool)
    (h : ∀ x, (p x = true ∧ q x = false ∧ r x = false) ∨
      (p x = false ∧ q x = true ∧ r x = false) ∨
      (p x = false ∧ q x = false ∧ r x = true)) :
    ∀ l : List α, (l.filter p ++ l.filter q ++ l.filter r).Perm l := by
  intro l
  induction l with
  | nil => simp
  | cons a t ih =>
    rcases h a with ⟨hp, hq, hr⟩ | ⟨hp, hq, hr⟩ | ⟨hp, hq, hr⟩
    · simp only [List.filter_cons, hp, hq, hr, if_true, if_false,
        Bool.false_eq_true]
      exact ih.cons a
    · simp only [List.filter_cons, hp, hq, hr, if_true, if_false,
        Bool.false_eq_true]
      refine List.Perm.trans ?_ (ih.cons a)
      rw [List.append_assoc, List.append_assoc]
      exact List.perm_middle.trans (List.Perm.refl _)
    · simp only [List.filter_cons, hp, hq, hr, if_true, if_false,
        Bool.false_eq_true]
      refine List.Perm.trans ?_ (ih.cons a)
      exact List.perm_middle

theorem jaccard_nonneg (s t : Finset Str) :
    0 ≤ ((s ∩ t).card : ℚ) / ((s ∪ t).card : ℚ) := by positivity

theorem jaccard_le_one (s t : Finset Str) :
    ((s ∩ t).card : ℚ) / ((s ∪ t).card : ℚ) ≤ 1 := by
  rcases Nat.eq_zero_or_pos (s ∪ t).card with h | h
  · simp [h]
  · rw [div_le_one (by exact_mod_cast h)]
    exact_mod_cast Finset.card_le_card Finset.inter_subset_union

namespace FastSimilarityScorer

theorem name_similarity_bounds (a b : Str) :
    0 ≤ name_similarity a b ∧ name_similarity a b ≤ 1 := by
  simp only [name_similarity]
  split_ifs
  · norm_num
  · norm_num
  · norm_num
  · exact ⟨le_min (by norm_num) (by positivity), min_le_left _ _⟩
  · exact ⟨jaccard_nonneg _ _, jaccard_le_one _ _⟩

theorem email_similarity_bounds (a b : Str) :
    0 ≤ email_similarity a b ∧ email_similarity a b ≤ 1 := by
  simp only [email_similarity]
  split_ifs <;> norm_num

theorem company_similarity_bounds (a b : Str) :
    0 ≤ company_similarity a b ∧ company_similarity a b ≤ 1 := by
  simp only [company_similarity]
  split_ifs
  · norm_num
  · norm_num
  · norm_num
  · norm_num
  · exact ⟨jaccard_nonneg _ _, jaccard_le_one _ _⟩

theorem score_candidate_pair_bounds (l : LinkedInContact) (c : CrmContact) :
    0 ≤ (score_candidate_pair l c).similarity_score ∧
      (score_candidate_pair l c).similarity_score ≤ 1 := by
  simp only [score_candidate_pair]
  obtain ⟨hn0, hn1⟩ := name_similarity_bounds l.full_name
    (if c.fullname ≠ [] then c.fullname
     else pyStrip (c.firstname ++ (' ' :: c.lastname)))
  obtain ⟨he0, he1⟩ := email_similarity_bounds l.email c.emailaddress1
  obtain ⟨hc0, hc1⟩ := company_similarity_bounds
    (if l.current_position ≠ [] ∧
        strContains l.current_position " at ".data then
      lastSplitPart " at ".data l.current_position
    else []) c.companyname
  rcases eq_or_ne (email_similarity l.email c.emailaddress1) 1 with hb | hb
  · rw [if_pos hb]
    exact ⟨le_min (by norm_num) (by linarith), min_le_left _ _⟩
  · rw [if_neg hb]
    constructor <;> linarith

end FastSimilarityScorer

namespace BlockingEngine

theorem entries_addToBlock (bs : Blocks) (k : Str) (e : Entry) (k2 : Str) :
    entries (addToBlock bs k e) k2 =
      if k = k2 then entries bs k2 ++ [e] else entries bs k2 := by
  induction bs with
  | nil =>
    by_cases h : k = k2 <;>
      simp [addToBlock, entries, List.find?, h]
  | cons p bs ih =>
    obtain ⟨k0, es⟩ := p
    by_cases h0 : k0 = k
    · subst h0
      by_cases h2 : k0 = k2 <;>
        simp [addToBlock, entries, List.find?, h2]
    · by_cases h2 : k0 = k2
      · subst h2
        have hk : ¬ k = k0 := fun h => h0 h.symm
        simp [addToBlock, entries, List.find?, h0, hk]
      · simp only [addToBlock, if_neg h0]
        have he : entries ((k0, es) :: bs) k2 = entries bs k2 := by
          simp [entries, List.find?, h2]
        have he2 : entries ((k0, es) :: addToBlock bs k e) k2 =
            entries (addToBlock bs k e) k2 := by
          simp [entries, List.find?, h2]
        rw [he2, he, ih]

theorem mem_entries_addToBlock {e2 : Entry} {bs : Blocks} {k2 : Str}
    (k : Str) (e : Entry) (h : e2 ∈ entries bs k2) :
    e2 ∈ entries (addToBlock bs k e) k2 := by
  rw [entries_addToBlock]
  split_ifs
  · exact List.mem_append_left _ h
  · exact h

theorem self_mem_entries_addToBlock (bs : Blocks) (k : Str) (e : Entry) :
    e ∈ entries (addToBlock bs k e) k := by
  rw [entries_addToBlock, if_pos rfl]
  exact List.mem_append_right _ (List.mem_singleton.mpr rfl)

theorem nameStepL_mono {e2 : Entry} {bs : Blocks} {k2 : Str}
    (i : Nat) (c : LinkedInContact) (h : e2 ∈ entries bs k2) :
    e2 ∈ entries (nameStepL i c bs) k2 := by
  simp only [nameStepL]
  split_ifs <;>
    first
      | exact h
      | exact mem_entries_addToBlock _ _ h
      | exact mem_entries_addToBlock _ _ (mem_entries_addToBlock _ _ h)

theorem nameStepC_mono {e2 : Entry} {bs : Blocks} {k2 : Str}
    (j : Nat) (c : CrmContact) (h : e2 ∈ entries bs k2) :
    e2 ∈ entries (nameStepC j c bs) k2 := by
  simp only [nameStepC]
  split_ifs <;>
    first
      | exact h
      | exact mem_entries_addToBlock _ _ h
      | exact mem_entries_addToBlock _ _ (mem_entries_addToBlock _ _ h)

theorem emailStepL_mono {e2 : Entry} {bs : Blocks} {k2 : Str}
    (i : Nat) (c : LinkedInContact) (h : e2 ∈ entries bs k2) :
    e2 ∈ entries (emailStepL i c bs) k2 := by
  simp only [emailStepL]
  split_ifs <;>
    first
      | exact h
      | exact mem_entries_addToBlock _ _ h
      | exact mem_entries_addToBlock _ _ (mem_entries_addToBlock _ _ h)

theorem emailStepC_mono {e2 : Entry} {bs : Blocks} {k2 : Str}
    (j : Nat) (c : CrmContact) (h : e2 ∈ entries bs k2) :
    e2 ∈ entries (emailStepC j c bs) k2 := by
  simp only [emailStepC]
  split_ifs <;>
    first
      | exact h
      | exact mem_entries_addToBlock _ _ h
      | exact mem_entries_addToBlock _ _ (mem_entries_addToBlock _ _ h)

theorem companyStepL_mono {e2 : Entry} {bs : Blocks} {k2 : Str}
    (i : Nat) (c : LinkedInContact) (h : e2 ∈ entries bs k2) :
    e2 ∈ entries (companyStepL i c bs) k2 := by
  simp only [companyStepL]
  split_ifs <;> first | exact h | exact mem_entries_addToBlock _ _ h

theorem companyStepC_mono {e2 : Entry} {bs : Blocks} {k2 : Str}
    (j : Nat) (c : CrmContact) (h : e2 ∈ entries bs k2) :
    e2 ∈ entries (companyStepC j c bs) k2 := by
  simp only [companyStepC]
  split_ifs <;> first | exact h | exact mem_entries_addToBlock _ _ h

end BlockingEngine

theorem foldIdx_mono {α : Type} (step : Nat → α → Blocks → Blocks)
    (hstep : ∀ (i : Nat) (c : α) (bs : Blocks) (e2 : Entry) (k2 : Str),
      e2 ∈ entries bs k2 →
      e2 ∈ entries (step i c bs) k2) :
    ∀ (l : List α) (i : Nat) (bs : Blocks) (e2 : Entry) (k2 : Str),
      e2 ∈ entries bs k2 →
      e2 ∈ entries (foldIdx step i l bs) k2 := by
  intro l
  induction l with
  | nil => intro i bs e2 k2 h; exact h
  | cons c rest ih =>
    intro i bs e2 k2 h
    exact ih (i + 1) (step i c bs) e2 k2 (hstep i c bs e2 k2 h)

namespace BlockingEngine

theorem nameStepL_mem_self (i : Nat) (c : LinkedInContact) (bs : Blocks)
    (h3 : 3 ≤ (normalize_for_blocking c.full_name).length) :
    Entry.linkedin i c ∈ entries (nameStepL i c bs)
      ("name_".data ++ normalize_for_blocking c.full_name) := by
  have hne : c.full_name ≠ [] := by
    intro h
    rw [h] at h3
    simp [normalize_for_blocking] at h3
  simp only [nameStepL, if_pos hne, if_pos h3]
  split_ifs
  · exact mem_entries_addToBlock _ _ (self_mem_entries_addToBlock bs _ _)
  · exact self_mem_entries_addToBlock bs _ _
  · exact self_mem_entries_addToBlock bs _ _

theorem nameStepC_mem_self (j : Nat) (c : CrmContact) (bs : Blocks)
    (h3 : 3 ≤ (normalize_for_blocking (crmFullName c)).length) :
    Entry.crm j c ∈ entries (nameStepC j c bs)
      ("name_".data ++ normalize_for_blocking (crmFullName c)) := by
  have hne : crmFullName c ≠ [] := by
    intro h
    rw [h] at h3
    simp [normalize_for_blocking] at h3
  simp only [nameStepC, if_pos hne, if_pos h3]
  split_ifs
  · exact mem_entries_addToBlock _ _ (self_mem_entries_addToBlock bs _ _)
  · exact self_mem_entries_addToBlock bs _ _
  · exact self_mem_entries_addToBlock bs _ _

theorem foldIdx_nameStepL_mem :
    ∀ (l : List LinkedInContact) (n : Nat) (bs : Blocks) (i : Nat)
      (a : LinkedInContact), l.get? i = some a →
      3 ≤ (normalize_for_blocking a.full_name).length →
      Entry.linkedin (n + i) a ∈ entries (foldIdx nameStepL n l bs)
        ("name_".data ++ normalize_for_blocking a.full_name) := by
  intro l
  induction l with
  | nil => intro n bs i a hi; simp at hi
  | cons c rest ih =>
    intro n bs i a hi h3
    cases i with
    | zero =>
      simp only [List.get?] at hi
      obtain rfl := Option.some.inj hi
      simp only [Nat.add_zero, foldIdx]
      exact foldIdx_mono nameStepL (fun i c bs e2 k2 => nameStepL_mono i c)
        rest (n + 1) _ _ _ (nameStepL_mem_self n _ bs h3)
    | succ i2 =>
      simp only [List.get?] at hi
      have := ih (n + 1) (nameStepL n c bs) i2 a hi h3
      simpa [Nat.add_assoc, Nat.add_comm 1 i2] using this

theorem foldIdx_nameStepC_mem :
    ∀ (l : List CrmContact) (n : Nat) (bs : Blocks) (j : Nat)
      (b : CrmContact), l.get? j = some b →
      3 ≤ (normalize_for_blocking (crmFullName b)).length →
      Entry.crm (n + j) b ∈ entries (foldIdx nameStepC n l bs)
        ("name_".data ++ normalize_for_blocking (crmFullName b)) := by
  intro l
  induction l with
  | nil => intro n bs j b hj; simp at hj
  | cons c rest ih =>
    intro n bs j b hj h3
    cases j with
    | zero =>
      simp only [List.get?] at hj
      obtain rfl := Option.some.inj hj
      simp only [Nat.add_zero, foldIdx]
      exact foldIdx_mono nameStepC (fun j c bs e2 k2 => nameStepC_mono j c)
        rest (n + 1) _ _ _ (nameStepC_mem_self n _ bs h3)
    | succ j2 =>
      simp only [List.get?] at hj
      have := ih (n + 1) (nameStepC n c bs) j2 b hj h3
      simpa [Nat.add_assoc, Nat.add_comm 1 j2] using this

theorem create_name_blocks_mem_L (L : List LinkedInContact)
    (C : List CrmContact) (i : Nat) (a : LinkedInContact)
    (hi : L.get? i = some a)
    (h3 : 3 ≤ (normalize_for_blocking a.full_name).length) :
    Entry.linkedin i a ∈ entries (create_name_blocks L C)
      ("name_".data ++ normalize_for_blocking a.full_name) := by
  unfold create_name_blocks
  refine foldIdx_mono nameStepC (fun j c bs e2 k2 => nameStepC_mono j c)
    C 0 _ _ _ ?_
  have := foldIdx_nameStepL_mem L 0 [] i a hi h3
  simpa using this

theorem create_name_blocks_mem_C (L : List LinkedInContact)
    (C : List CrmContact) (j : Nat) (b : CrmContact)
    (hj : C.get? j = some b)
    (h3 : 3 ≤ (normalize_for_blocking (crmFullName b)).length) :
    Entry.crm j b ∈ entries (create_name_blocks L C)
      ("name_".data ++ normalize_for_blocking (crmFullName b)) := by
  unfold create_name_blocks
  have := foldIdx_nameStepC_mem C 0 (foldIdx nameStepL 0 L []) j b hj h3
  simpa using this

theorem entries_mem {bs : Blocks} {k : Str} (h : entries bs k ≠ []) :
    (k, entries bs k) ∈ bs := by
  unfold entries at h ⊢
  cases hf : bs.find? (fun p => decide (p.1 = k)) with
  | none => simp [hf] at h
  | some p =>
    simp only [hf]
    have hm := List.mem_of_find?_eq_some hf
    have hp := List.find?_some hf
    obtain ⟨p1, p2⟩ := p
    simp only [decide_eq_true_eq] at hp
    subst hp
    exact hm

end BlockingEngine

namespace BlockingEngine

/-- The pair identities produced by the cross product of one block. -/
def idsOfBlock (recs : List Entry) : List (Nat × Nat) :=
  (linkedinEntries recs).flatMap
    (fun l => (crmEntries recs).map (fun c => (l.1, c.1)))

/-- All pair identities produced by a list of blocks. -/
def allIds (blocks : Blocks) : List (Nat × Nat) :=
  blocks.flatMap (fun b => idsOfBlock b.2)

/-- The `pair_id` of a candidate pair. -/
def pairId (pr : CandidatePair) : Nat × Nat := (pr.li, pr.ci)

theorem mem_idsOfBlock {recs : List Entry} {i j : Nat}
    {a : LinkedInContact} {b : CrmContact}
    (hl : Entry.linkedin i a ∈ recs) (hc : Entry.crm j b ∈ recs) :
    (i, j) ∈ idsOfBlock recs := by
  unfold idsOfBlock
  rw [List.mem_flatMap]
  refine ⟨(i, a), ?_, ?_⟩
  · unfold linkedinEntries
    rw [List.mem_filterMap]
    exact ⟨Entry.linkedin i a, hl, rfl⟩
  · rw [List.mem_map]
    refine ⟨(j, b), ?_, rfl⟩
    unfold crmEntries
    rw [List.mem_filterMap]
    exact ⟨Entry.crm j b, hc, rfl⟩

theorem idsOfBlock_small {recs : List Entry} (h : recs.length < 2) :
    idsOfBlock recs = [] := by
  match recs, h with
  | [], _ => rfl
  | [e], _ =>
    cases e <;> simp [idsOfBlock, linkedinEntries, crmEntries]
  | e1 :: e2 :: rest, h => simp at h; omega

theorem emitOne_seen (key : Str) (l : Nat × LinkedInContact)
    (c : Nat × CrmContact) (st : GenState) (q : Nat × Nat) :
    q ∈ (emitOne key l c st).seen ↔ q ∈ st.seen ∨ q = (l.1, c.1) := by
  unfold emitOne
  split_ifs with h
  · exact ⟨Or.inl, fun hq => hq.elim id (fun he => he ▸ h)⟩
  · simp

theorem emitOne_out {key : Str} {l : Nat × LinkedInContact}
    {c : Nat × CrmContact} {st : GenState} {pr : CandidatePair}
    (h : pr ∈ (emitOne key l c st).out) :
    pr ∈ st.out ∨ ((l.1, c.1) ∉ st.seen ∧
      pr = ⟨l.1, c.1, l.2, c.2, key, 0⟩) := by
  unfold emitOne at h
  split_ifs at h with hs
  · exact Or.inl h
  · rcases List.mem_append.mp h with h2 | h2
    · exact Or.inl h2
    · exact Or.inr ⟨hs, List.mem_singleton.mp h2⟩

theorem foldCrm_seen (key : Str) (l : Nat × LinkedInContact) :
    ∀ (crecs : List (Nat × CrmContact)) (st : GenState) (q : Nat × Nat),
    q ∈ (crecs.foldl (fun st2 c => emitOne key l c st2) st).seen ↔
      q ∈ st.seen ∨ ∃ c ∈ crecs, q = (l.1, c.1) := by
  intro crecs
  induction crecs with
  | nil => intro st q; simp
  | cons c rest ih =>
    intro st q
    simp only [List.foldl_cons]
    rw [ih, emitOne_seen]
    constructor
    · rintro ((h | h) | ⟨c2, hc2, h⟩)
      · exact Or.inl h
      · exact Or.inr ⟨c, List.mem_cons_self c rest, h⟩
      · exact Or.inr ⟨c2, List.mem_cons_of_mem c hc2, h⟩
    · rintro (h | ⟨c2, hc2, h⟩)
      · exact Or.inl (Or.inl h)
      · rcases List.mem_cons.mp hc2 with rfl | hc3
        · exact Or.inl (Or.inr h)
        · exact Or.inr ⟨c2, hc3, h⟩

theorem foldL_seen (key : Str) (crecs : List (Nat × CrmContact)) :
    ∀ (lrecs : List (Nat × LinkedInContact)) (st : GenState) (q : Nat × Nat),
    q ∈ (lrecs.foldl (fun st1 l => crecs.foldl
      (fun st2 c => emitOne key l c st2) st1) st).seen ↔
      q ∈ st.seen ∨ ∃ l ∈ lrecs, ∃ c ∈ crecs, q = (l.1, c.1) := by
  intro lrecs
  induction lrecs with
  | nil => intro st q; simp
  | cons l rest ih =>
    intro st q
    simp only [List.foldl_cons]
    rw [ih, foldCrm_seen]
    constructor
    · rintro ((h | ⟨c, hc, h⟩) | ⟨l2, hl2, c, hc, h⟩)
      · exact Or.inl h
      · exact Or.inr ⟨l, List.mem_cons_self l rest, c, hc, h⟩
      · exact Or.inr ⟨l2, List.mem_cons_of_mem l hl2, c, hc, h⟩
    · rintro (h | ⟨l2, hl2, c, hc, h⟩)
      · exact Or.inl (Or.inl h)
      · rcases List.mem_cons.mp hl2 with rfl | hl3
        · exact Or.inl (Or.inr ⟨c, hc, h⟩)
        · exact Or.inr ⟨l2, hl3, c, hc, h⟩

theorem mem_idsOfBlock_iff {recs : List Entry} {q : Nat × Nat} :
    q ∈ idsOfBlock recs ↔ ∃ l ∈ linkedinEntries recs,
      ∃ c ∈ crmEntries recs, q = (l.1, c.1) := by
  unfold idsOfBlock
  rw [List.mem_flatMap]
  constructor
  · rintro ⟨l, hl, hq⟩
    rw [List.mem_map] at hq
    obtain ⟨c, hc, hq⟩ := hq
    exact ⟨l, hl, c, hc, hq.symm⟩
  · rintro ⟨l, hl, c, hc, hq⟩
    exact ⟨l, hl, List.mem_map.mpr ⟨c, hc, hq.symm⟩⟩

theorem emitBlock_seen (key : Str) (recs : List Entry) (st : GenState)
    (q : Nat × Nat) :
    q ∈ (emitBlock key recs st).seen ↔ q ∈ st.seen ∨ q ∈ idsOfBlock recs := by
  unfold emitBlock
  split_ifs with h
  · rw [idsOfBlock_small h]
    simp
  · rw [foldL_seen, mem_idsOfBlock_iff]

theorem genFold_seen :
    ∀ (blocks : Blocks) (st : GenState) (q : Nat × Nat),
    q ∈ (blocks.foldl (fun st2 p => emitBlock p.1 p.2 st2) st).seen ↔
      q ∈ st.seen ∨ q ∈ allIds blocks := by
  intro blocks
  induction blocks with
  | nil => intro st q; simp [allIds]
  | cons b rest ih =>
    intro st q
    simp only [List.foldl_cons]
    rw [ih, emitBlock_seen]
    unfold allIds
    simp only [List.flatMap_cons, List.mem_append]
    rw [List.mem_flatMap]
    constructor
    · rintro ((h | h) | h)
      · exact Or.inl h
      · exact Or.inr (Or.inl h)
      · exact Or.inr (Or.inr h)
    · rintro (h | (h | h))
      · exact Or.inl (Or.inl h)
      · exact Or.inl (Or.inr h)
      · exact Or.inr h

end BlockingEngine

theorem foldl_preserve {α β : Type} (f : β → α → β) (P : β → Prop)
    (hf : ∀ b a, P b → P (f b a)) :
    ∀ (l : List α) (b : β), P b → P (l.foldl f b) := by
  intro l
  induction l with
  | nil => intro b h; exact h
  | cons a rest ih => intro b h; exact ih (f b a) (hf b a h)

namespace BlockingEngine

/-- The generation-loop invariant: `seen_pairs` is exactly the set of
emitted pair identities, and the emitted identities are pairwise
distinct. -/
def GenInv (st : GenState) : Prop :=
  (∀ q, q ∈ st.seen ↔ q ∈ st.out.map pairId) ∧ (st.out.map pairId).Nodup

theorem emitOne_inv {st : GenState} (key : Str) (l : Nat × LinkedInContact)
    (c : Nat × CrmContact) (h : GenInv st) : GenInv (emitOne key l c st) := by
  obtain ⟨hiff, hnd⟩ := h
  unfold emitOne
  split_ifs with hs
  · exact ⟨hiff, hnd⟩
  · constructor
    · intro q
      simp only [List.map_append, List.map_cons, List.map_nil,
        List.mem_append, List.mem_singleton]
      rw [← hiff q]
      rfl
    · rw [List.map_append]
      rw [List.nodup_append]
      refine ⟨hnd, List.nodup_singleton _, ?_⟩
      intro q hq hq2
      simp only [List.map_cons, List.map_nil, List.mem_singleton] at hq2
      subst hq2
      exact hs ((hiff _).mpr hq)

theorem emitBlock_inv {st : GenState} (key : Str) (recs : List Entry)
    (h : GenInv st) : GenInv (emitBlock key recs st) := by
  unfold emitBlock
  split_ifs
  · exact h
  · exact foldl_preserve _ GenInv
      (fun st1 l h1 => foldl_preserve _ GenInv
        (fun st2 c h2 => emitOne_inv key l c h2) _ st1 h1) _ st h

theorem genFromBlocks_inv (blocks : Blocks) : GenInv (genFromBlocks blocks) := by
  unfold genFromBlocks
  refine foldl_preserve _ GenInv (fun st p h => emitBlock_inv p.1 p.2 h) _ _ ?_
  constructor
  · intro q; simp [pairId]
  · simp

/-- The key of the first block whose cross product contains the pair
identity `p`. -/
def firstKeyFor (p : Nat × Nat) (blocks : Blocks) : Option Str :=
  (blocks.find? (fun b => (idsOfBlock b.2).contains p)).map Prod.fst

theorem foldCrm_out {key : Str} {l : Nat × LinkedInContact} :
    ∀ (crecs : List (Nat × CrmContact)) (st : GenState) (pr : CandidatePair),
    pr ∈ (crecs.foldl (fun st2 c => emitOne key l c st2) st).out →
    pr ∈ st.out ∨ (pairId pr ∉ st.seen ∧
      ∃ c ∈ crecs, pr = ⟨l.1, c.1, l.2, c.2, key, 0⟩) := by
  intro crecs
  induction crecs with
  | nil => intro st pr h; exact Or.inl h
  | cons c rest ih =>
    intro st pr h
    simp only [List.foldl_cons] at h
    rcases ih (emitOne key l c st) pr h with h2 | ⟨hseen, c2, hc2, h2⟩
    · rcases emitOne_out h2 with h3 | ⟨hs, h3⟩
      · exact Or.inl h3
      · refine Or.inr ⟨?_, c, List.mem_cons_self c rest, h3⟩
        subst h3
        exact hs
    · refine Or.inr ⟨?_, c2, List.mem_cons_of_mem c hc2, h2⟩
      intro hq
      exact hseen ((emitOne_seen key l c st _).mpr (Or.inl hq))

theorem foldL_out {key : Str} {crecs : List (Nat × CrmContact)} :
    ∀ (lrecs : List (Nat × LinkedInContact)) (st : GenState)
      (pr : CandidatePair),
    pr ∈ (lrecs.foldl (fun st1 l => crecs.foldl
      (fun st2 c => emitOne key l c st2) st1) st).out →
    pr ∈ st.out ∨ (pairId pr ∉ st.seen ∧
      ∃ l ∈ lrecs, ∃ c ∈ crecs, pr = ⟨l.1, c.1, l.2, c.2, key, 0⟩) := by
  intro lrecs
  induction lrecs with
  | nil => intro st pr h; exact Or.inl h
  | cons l rest ih =>
    intro st pr h
    simp only [List.foldl_cons] at h
    rcases ih _ pr h with h2 | ⟨hseen, l2, hl2, c, hc, h2⟩
    · rcases foldCrm_out crecs st pr h2 with h3 | ⟨hs, c, hc, h3⟩
      · exact Or.inl h3
      · exact Or.inr ⟨hs, l, List.mem_cons_self l rest, c, hc, h3⟩
    · refine Or.inr ⟨?_, l2, List.mem_cons_of_mem l hl2, c, hc, h2⟩
      intro hq
      exact hseen ((foldCrm_seen key l crecs st _).mpr (Or.inl hq))

theorem emitBlock_out {key : Str} {recs : List Entry} {st : GenState}
    {pr : CandidatePair} (h : pr ∈ (emitBlock key recs st).out) :
    pr ∈ st.out ∨ (pairId pr ∉ st.seen ∧ pairId pr ∈ idsOfBlock recs ∧
      pr.blocking_reason = key) := by
  unfold emitBlock at h
  split_ifs at h
  · exact Or.inl h
  · rcases foldL_out _ st pr h with h2 | ⟨hseen, l, hl, c, hc, h2⟩
    · exact Or.inl h2
    · refine Or.inr ⟨hseen, ?_, ?_⟩
      · subst h2
        exact mem_idsOfBlock_iff.mpr ⟨l, hl, c, hc, rfl⟩
      · subst h2
        rfl

theorem genFold_reason :
    ∀ (blocks : Blocks) (st : GenState) (pr : CandidatePair),
    pr ∈ (blocks.foldl (fun st2 p => emitBlock p.1 p.2 st2) st).out →
    pr ∈ st.out ∨ (pairId pr ∉ st.seen ∧
      firstKeyFor (pairId pr) blocks = some pr.blocking_reason) := by
  intro blocks
  induction blocks with
  | nil => intro st pr h; exact Or.inl h
  | cons b rest ih =>
    intro st pr h
    obtain ⟨key, recs⟩ := b
    simp only [List.foldl_cons] at h
    rcases ih _ pr h with h2 | ⟨hseen, hkey⟩
    · rcases emitBlock_out h2 with h3 | ⟨hs, hid, hreason⟩
      · exact Or.inl h3
      · refine Or.inr ⟨hs, ?_⟩
        unfold firstKeyFor
        rw [List.find?_cons_of_pos _ (by simpa using hid)]
        simp [hreason]
    · have hns : pairId pr ∉ st.seen ∧ pairId pr ∉ idsOfBlock recs := by
        have := (emitBlock_seen key recs st (pairId pr))
        constructor
        · intro hq; exact hseen (this.mpr (Or.inl hq))
        · intro hq; exact hseen (this.mpr (Or.inr hq))
      refine Or.inr ⟨hns.1, ?_⟩
      unfold firstKeyFor at hkey ⊢
      rw [List.find?_cons_of_neg _ (by simpa using hns.2)]
      exact hkey

end BlockingEngine

namespace BlockingEngine

/-- An index entry is well formed when its stored record is the record at
its stored index. -/
def entryWF (L : List LinkedInContact) (C : List CrmContact) : Entry → Prop
  | .linkedin i c => L.get? i = some c
  | .crm j c => C.get? j = some c

/-- All entries of all blocks are well formed. -/
def blocksWF (L : List LinkedInContact) (C : List CrmContact)
    (bs : Blocks) : Prop :=
  ∀ p ∈ bs, ∀ e ∈ p.2, entryWF L C e

theorem blocksWF_addToBlock {L : List LinkedInContact} {C : List CrmContact}
    {bs : Blocks} {e : Entry} (k : Str)
    (hwf : blocksWF L C bs) (he : entryWF L C e) :
    blocksWF L C (addToBlock bs k e) := by
  revert hwf
  induction bs with
  | nil =>
    intro hwf p hp e2 he2
    simp only [addToBlock, List.mem_singleton] at hp
    subst hp
    simp only [List.mem_singleton] at he2
    subst he2
    exact he
  | cons q bs ih =>
    obtain ⟨k0, es⟩ := q
    intro hwf p hp e2 he2
    simp only [addToBlock] at hp
    split_ifs at hp with h0
    · rcases List.mem_cons.mp hp with rfl | hp2
      · rcases List.mem_append.mp he2 with h3 | h3
        · exact hwf (k0, es) (List.mem_cons_self _ _) e2 h3
        · rw [List.mem_singleton.mp h3]
          exact he
      · exact hwf p (List.mem_cons_of_mem _ hp2) e2 he2
    · rcases List.mem_cons.mp hp with rfl | hp2
      · exact hwf (k0, es) (List.mem_cons_self _ _) e2 he2
      · exact ih (fun p2 hp2b => hwf p2 (List.mem_cons_of_mem _ hp2b)) p hp2 e2 he2

theorem nameStepL_wf {L : List LinkedInContact} {C : List CrmContact}
    {bs : Blocks} {i : Nat} {c : LinkedInContact}
    (hwf : blocksWF L C bs) (hc : L.get? i = some c) :
    blocksWF L C (nameStepL i c bs) := by
  simp only [nameStepL]
  split_ifs <;>
    first
      | exact hwf
      | exact blocksWF_addToBlock _ hwf hc
      | exact blocksWF_addToBlock _ (blocksWF_addToBlock _ hwf hc) hc

theorem nameStepC_wf {L : List LinkedInContact} {C : List CrmContact}
    {bs : Blocks} {j : Nat} {c : CrmContact}
    (hwf : blocksWF L C bs) (hc : C.get? j = some c) :
    blocksWF L C (nameStepC j c bs) := by
  simp only [nameStepC]
  split_ifs <;>
    first
      | exact hwf
      | exact blocksWF_addToBlock _ hwf hc
      | exact blocksWF_addToBlock _ (blocksWF_addToBlock _ hwf hc) hc

theorem emailStepL_wf {L : List LinkedInContact} {C : List CrmContact}
    {bs : Blocks} {i : Nat} {c : LinkedInContact}
    (hwf : blocksWF L C bs) (hc : L.get? i = some c) :
    blocksWF L C (emailStepL i c bs) := by
  simp only [emailStepL]
  split_ifs <;>
    first
      | exact hwf
      | exact blocksWF_addToBlock _ hwf hc
      | exact blocksWF_addToBlock _ (blocksWF_addToBlock _ hwf hc) hc

theorem emailStepC_wf {L : List LinkedInContact} {C : List CrmContact}
    {bs : Blocks} {j : Nat} {c : CrmContact}
    (hwf : blocksWF L C bs) (hc : C.get? j = some c) :
    blocksWF L C (emailStepC j c bs) := by
  simp only [emailStepC]
  split_ifs <;>
    first
      | exact hwf
      | exact blocksWF_addToBlock _ hwf hc
      | exact blocksWF_addToBlock _ (blocksWF_addToBlock _ hwf hc) hc

theorem companyStepL_wf {L : List LinkedInContact} {C : List CrmContact}
    {bs : Blocks} {i : Nat} {c : LinkedInContact}
    (hwf : blocksWF L C bs) (hc : L.get? i = some c) :
    blocksWF L C (companyStepL i c bs) := by
  simp only [companyStepL]
  split_ifs <;> first | exact hwf | exact blocksWF_addToBlock _ hwf hc

theorem companyStepC_wf {L : List LinkedInContact} {C : List CrmContact}
    {bs : Blocks} {j : Nat} {c : CrmContact}
    (hwf : blocksWF L C bs) (hc : C.get? j = some c) :
    blocksWF L C (companyStepC j c bs) := by
  simp only [companyStepC]
  split_ifs <;> first | exact hwf | exact blocksWF_addToBlock _ hwf hc

theorem foldIdx_wf_L {L : List LinkedInContact} {C : List CrmContact}
    (step : Nat → LinkedInContact → Blocks → Blocks)
    (hstep : ∀ (i : Nat) (c : LinkedInContact) (bs : Blocks),
      blocksWF L C bs → L.get? i = some c → blocksWF L C (step i c bs)) :
    ∀ (l : List LinkedInContact) (n : Nat) (bs : Blocks),
      (∀ (k : Nat) (c : LinkedInContact), l.get? k = some c →
        L.get? (n + k) = some c) →
      blocksWF L C bs → blocksWF L C (foldIdx step n l bs) := by
  intro l
  induction l with
  | nil => intro n bs hrel h; exact h
  | cons c rest ih =>
    intro n bs hrel h
    refine ih (n + 1) (step n c bs) (fun k c2 hk => ?_) ?_
    · have := hrel (k + 1) c2 (by simpa using hk)
      simpa [Nat.add_assoc, Nat.add_comm 1 k] using this
    · exact hstep n c bs h (by simpa using hrel 0 c rfl)

theorem foldIdx_wf_C {L : List LinkedInContact} {C : List CrmContact}
    (step : Nat → CrmContact → Blocks → Blocks)
    (hstep : ∀ (j : Nat) (c : CrmContact) (bs : Blocks),
      blocksWF L C bs → C.get? j = some c → blocksWF L C (step j c bs)) :
    ∀ (l : List CrmContact) (n : Nat) (bs : Blocks),
      (∀ (k : Nat) (c : CrmContact), l.get? k = some c →
        C.get? (n + k) = some c) →
      blocksWF L C bs → blocksWF L C (foldIdx step n l bs) := by
  intro l
  induction l with
  | nil => intro n bs hrel h; exact h
  | cons c rest ih =>
    intro n bs hrel h
    refine ih (n + 1) (step n c bs) (fun k c2 hk => ?_) ?_
    · have := hrel (k + 1) c2 (by simpa using hk)
      simpa [Nat.add_assoc, Nat.add_comm 1 k] using this
    · exact hstep n c bs h (by simpa using hrel 0 c rfl)

theorem allBlocks_wf (L : List LinkedInContact) (C : List CrmContact) :
    blocksWF L C (allBlocks L C) := by
  have hname : blocksWF L C (create_name_blocks L C) := by
    unfold create_name_blocks
    refine foldIdx_wf_C nameStepC (fun j c bs h hc => nameStepC_wf h hc)
      C 0 _ (fun k c hk => by simpa using hk) ?_
    refine foldIdx_wf_L nameStepL (fun i c bs h hc => nameStepL_wf h hc)
      L 0 _ (fun k c hk => by simpa using hk) ?_
    intro p hp
    simp at hp
  have hemail : blocksWF L C (create_email_blocks L C) := by
    unfold create_email_blocks
    refine foldIdx_wf_C emailStepC (fun j c bs h hc => emailStepC_wf h hc)
      C 0 _ (fun k c hk => by simpa using hk) ?_
    refine foldIdx_wf_L emailStepL (fun i c bs h hc => emailStepL_wf h hc)
      L 0 _ (fun k c hk => by simpa using hk) ?_
    intro p hp
    simp at hp
  have hcompany : blocksWF L C (create_company_blocks L C) := by
    unfold create_company_blocks
    refine foldIdx_wf_C companyStepC (fun j c bs h hc => companyStepC_wf h hc)
      C 0 _ (fun k c hk => by simpa using hk) ?_
    refine foldIdx_wf_L companyStepL (fun i c bs h hc => companyStepL_wf h hc)
      L 0 _ (fun k c hk => by simpa using hk) ?_
    intro p hp
    simp at hp
  intro p hp e he
  unfold allBlocks at hp
  rcases List.mem_append.mp hp with hp1 | hp1
  · rcases List.mem_append.mp hp1 with hp2 | hp2
    · obtain ⟨q, hq, rfl⟩ := List.mem_map.mp hp2
      exact hname q hq e he
    · obtain ⟨q, hq, rfl⟩ := List.mem_map.mp hp2
      exact hemail q hq e he
  · obtain ⟨q, hq, rfl⟩ := List.mem_map.mp hp1
    exact hcompany q hq e he

theorem linkedinEntries_mem {recs : List Entry} {i : Nat}
    {c : LinkedInContact} (h : (i, c) ∈ linkedinEntries recs) :
    Entry.linkedin i c ∈ recs := by
  unfold linkedinEntries at h
  obtain ⟨e, he, hf⟩ := List.mem_filterMap.mp h
  cases e with
  | linkedin i2 c2 =>
    simp only [Option.some.injEq, Prod.mk.injEq] at hf
    obtain ⟨rfl, rfl⟩ := hf
    exact he
  | crm j2 c2 => simp at hf

theorem crmEntries_mem {recs : List Entry} {j : Nat}
    {c : CrmContact} (h : (j, c) ∈ crmEntries recs) :
    Entry.crm j c ∈ recs := by
  unfold crmEntries at h
  obtain ⟨e, he, hf⟩ := List.mem_filterMap.mp h
  cases e with
  | linkedin i2 c2 => simp at hf
  | crm j2 c2 =>
    simp only [Option.some.injEq, Prod.mk.injEq] at hf
    obtain ⟨rfl, rfl⟩ := hf
    exact he

/-- All emitted pairs store the records at their stored indices. -/
def outWF (L : List LinkedInContact) (C : List CrmContact)
    (st : GenState) : Prop :=
  ∀ pr ∈ st.out, L.get? pr.li = some pr.linkedin_contact ∧
    C.get? pr.ci = some pr.crm_contact

theorem genFold_outWF {L : List LinkedInContact} {C : List CrmContact} :
    ∀ (blocks : Blocks) (st : GenState), blocksWF L C blocks →
    outWF L C st →
    outWF L C (blocks.foldl (fun st2 p => emitBlock p.1 p.2 st2) st) := by
  intro blocks
  induction blocks with
  | nil => intro st hb h; exact h
  | cons b rest ih =>
    intro st hb h
    obtain ⟨key, recs⟩ := b
    simp only [List.foldl_cons]
    refine ih _ (fun p hp => hb p (List.mem_cons_of_mem _ hp)) ?_
    intro pr hpr
    rcases emitBlock_out hpr with h2 | ⟨hseen, hid, hreason⟩
    · exact h pr h2
    · rcases mem_idsOfBlock_iff.mp hid with ⟨l, hl, c, hc, hq⟩
      unfold emitBlock at hpr
      split_ifs at hpr with hlen
      · exact h pr hpr
      · rcases foldL_out _ st pr hpr with h3 | ⟨hs2, l2, hl2, c2, hc2, h3⟩
        · exact h pr h3
        · subst h3
          have hwl := hb (key, recs) (List.mem_cons_self _ _)
            (Entry.linkedin l2.1 l2.2) (linkedinEntries_mem hl2)
          have hwc := hb (key, recs) (List.mem_cons_self _ _)
            (Entry.crm c2.1 c2.2) (crmEntries_mem hc2)
          exact ⟨hwl, hwc⟩

end BlockingEngine

namespace BlockingEngine

theorem generate_mem_of_name (L : List LinkedInContact) (C : List CrmContact)
    (i j : Nat) (a : LinkedInContact) (b : CrmContact)
    (hi : L.get? i = some a) (hj : C.get? j = some b)
    (heq : normalize_for_blocking a.full_name =
      normalize_for_blocking (crmFullName b))
    (hlen : 3 ≤ (normalize_for_blocking a.full_name).length) :
    ∃ pr ∈ generate_candidate_pairs L C, pr.li = i ∧ pr.ci = j ∧
      pr.linkedin_contact = a ∧ pr.crm_contact = b := by
  have hel : Entry.linkedin i a ∈ entries (create_name_blocks L C)
      ("name_".data ++ normalize_for_blocking a.full_name) :=
    create_name_blocks_mem_L L C i a hi hlen
  have hec : Entry.crm j b ∈ entries (create_name_blocks L C)
      ("name_".data ++ normalize_for_blocking a.full_name) := by
    rw [heq]
    exact create_name_blocks_mem_C L C j b hj (heq ▸ hlen)
  have hne : entries (create_name_blocks L C)
      ("name_".data ++ normalize_for_blocking a.full_name) ≠ [] := by
    intro h
    rw [h] at hel
    simp at hel
  have hblk := entries_mem hne
  have hall : ("name_".data ++ ("name_".data ++
      normalize_for_blocking a.full_name),
      entries (create_name_blocks L C)
        ("name_".data ++ normalize_for_blocking a.full_name)) ∈
      allBlocks L C := by
    unfold allBlocks
    exact List.mem_append_left _ (List.mem_append_left _
      (List.mem_map.mpr ⟨_, hblk, rfl⟩))
  have hid : (i, j) ∈ allIds (allBlocks L C) := by
    unfold allIds
    exact List.mem_flatMap.mpr ⟨_, hall, mem_idsOfBlock hel hec⟩
  have hinv := genFromBlocks_inv (allBlocks L C)
  have hseen : (i, j) ∈ (genFromBlocks (allBlocks L C)).seen := by
    unfold genFromBlocks
    exact (genFold_seen _ _ _).mpr (Or.inr hid)
  have hout : (i, j) ∈ (genFromBlocks (allBlocks L C)).out.map pairId :=
    (hinv.1 _).mp hseen
  obtain ⟨pr, hpr, hpid⟩ := List.mem_map.mp hout
  have hwf : outWF L C (genFromBlocks (allBlocks L C)) := by
    unfold genFromBlocks
    refine genFold_outWF (allBlocks L C) ⟨[], []⟩ (allBlocks_wf L C) ?_
    intro pr2 h2
    simp at h2
  obtain ⟨hli, hci⟩ := Prod.mk.injEq .. ▸ hpid
  obtain ⟨hwl, hwc⟩ := hwf pr hpr
  refine ⟨pr, hpr, ?_, ?_, ?_, ?_⟩
  · exact hli
  · exact hci
  · rw [hli] at hwl
    rw [hi] at hwl
    exact (Option.some.inj hwl).symm
  · rw [hci] at hwc
    rw [hj] at hwc
    exact (Option.some.inj hwc).symm

theorem generate_nodup (L : List LinkedInContact) (C : List CrmContact) :
    ((generate_candidate_pairs L C).map pairId).Nodup :=
  (genFromBlocks_inv (allBlocks L C)).2

theorem generate_first_reason (L : List LinkedInContact)
    (C : List CrmContact) (pr : CandidatePair)
    (h : pr ∈ generate_candidate_pairs L C) :
    firstKeyFor (pairId pr) (allBlocks L C) = some pr.blocking_reason := by
  unfold generate_candidate_pairs genFromBlocks at h
  rcases genFold_reason (allBlocks L C) ⟨[], []⟩ pr h with h2 | ⟨hs, h2⟩
  · simp at h2
  · exact h2

end BlockingEngine

theorem dropWhile_idem (p : Char → Bool) (l : Str) :
    List.dropWhile p (List.dropWhile p l) = List.dropWhile p l := by
  induction l with
  | nil => rfl
  | cons a t ih =>
    by_cases h : p a
    · simp only [List.dropWhile_cons, h, if_true]
      exact ih
    · simp only [List.dropWhile_cons, h, if_false]
      simp [h]

theorem charEq_iff_toNat {c d : Char} : c = d ↔ c.toNat = d.toNat := by
  constructor
  · intro h; rw [h]
  · intro h
    cases c with
    | mk v1 p1 =>
      cases d with
      | mk v2 p2 =>
        simp only [Char.toNat] at h
        congr 1
        exact UInt32.toNat.inj h

theorem charOfNat_toNat {n : Nat} (h : n < 55296) :
    (Char.ofNat n).toNat = n := by
  have hv : n.isValidChar := Or.inl h
  unfold Char.ofNat
  rw [dif_pos hv]
  rfl

theorem toLower_toNat (c : Char) :
    (Char.toLower c).toNat =
      if 65 ≤ c.toNat ∧ c.toNat ≤ 90 then c.toNat + 32 else c.toNat := by
  unfold Char.toLower
  by_cases h : 65 ≤ c.toNat ∧ c.toNat ≤ 90
  · have h90 : c.toNat ≤ 90 := h.2
    simp only [ge_iff_le, h, and_self, if_true, if_pos h]
    exact charOfNat_toNat (by omega)
  · simp only [ge_iff_le, if_neg h]

theorem toLower_toLower (c : Char) :
    Char.toLower (Char.toLower c) = Char.toLower c := by
  rw [charEq_iff_toNat, toLower_toNat, toLower_toNat]
  split_ifs <;> omega

theorem toLower_ascii {c : Char} (h : c.toNat < 128) :
    (Char.toLower c).toNat < 128 := by
  rw [toLower_toNat]
  split_ifs <;> omega

theorem isPySpace_toNat (c : Char) :
    isPySpace c = (c.toNat = 32 || c.toNat = 9 || c.toNat = 10 ||
      c.toNat = 13 || c.toNat = 11 || c.toNat = 12) := by
  unfold isPySpace
  have h32 : decide (c = ' ') = decide (c.toNat = 32) := by
    rw [decide_eq_decide]; exact charEq_iff_toNat
  have h9 : decide (c = '\t') = decide (c.toNat = 9) := by
    rw [decide_eq_decide]; exact charEq_iff_toNat
  have h10 : decide (c = '\n') = decide (c.toNat = 10) := by
    rw [decide_eq_decide]; exact charEq_iff_toNat
  have h13 : decide (c = '\r') = decide (c.toNat = 13) := by
    rw [decide_eq_decide]; exact charEq_iff_toNat
  rw [h32, h9, h10, h13]

theorem isPySpace_toLower (c : Char) :
    isPySpace (Char.toLower c) = isPySpace c := by
  rw [isPySpace_toNat, isPySpace_toNat, toLower_toNat]
  split_ifs with h
  · rw [Bool.eq_iff_iff]
    simp only [Bool.or_eq_true, decide_eq_true_eq]
    omega
  · rfl

theorem unidecodeChar_ascii {c : Char} (h : c.toNat < 128) :
    unidecodeChar c = [c] := by
  unfold unidecodeChar
  rw [if_pos h]

theorem unidecodeStr_ascii {s : Str} (h : ∀ c ∈ s, c.toNat < 128) :
    unidecodeStr s = s := by
  induction s with
  | nil => rfl
  | cons c rest ih =>
    unfold unidecodeStr at ih ⊢
    rw [List.flatMap_cons, unidecodeChar_ascii (h c (List.mem_cons_self c rest)),
      ih (fun d hd => h d (List.mem_cons_of_mem c hd))]
    rfl

theorem pyLower_ascii {s : Str} (h : ∀ c ∈ s, c.toNat < 128) :
    ∀ c ∈ pyLower s, c.toNat < 128 := by
  intro c hc
  obtain ⟨d, hd, rfl⟩ := List.mem_map.mp hc
  exact toLower_ascii (h d hd)

theorem pyStrip_subset {s : Str} : ∀ c ∈ pyStrip s, c ∈ s := by
  intro c hc
  unfold pyStrip pyRstrip pyLstrip at hc
  rw [List.mem_reverse] at hc
  have h1 := (List.dropWhile_sublist isPySpace).subset hc
  rw [List.mem_reverse] at h1
  exact (List.dropWhile_sublist isPySpace).subset h1

theorem pyLower_pyLower (s : Str) : pyLower (pyLower s) = pyLower s := by
  unfold pyLower
  rw [List.map_map]
  exact List.map_congr_left (fun c _ => toLower_toLower c)

theorem isPySpace_comp_toLower : (isPySpace ∘ Char.toLower) = isPySpace :=
  funext isPySpace_toLower

theorem pyLstrip_pyLower (s : Str) :
    pyLstrip (pyLower s) = pyLower (pyLstrip s) := by
  unfold pyLstrip pyLower
  rw [List.dropWhile_map, isPySpace_comp_toLower]

theorem pyRstrip_pyLower (s : Str) :
    pyRstrip (pyLower s) = pyLower (pyRstrip s) := by
  unfold pyRstrip pyLower
  rw [← List.map_reverse, List.dropWhile_map, isPySpace_comp_toLower,
    List.map_reverse]

theorem pyStrip_pyLower (s : Str) :
    pyStrip (pyLower s) = pyLower (pyStrip s) := by
  unfold pyStrip
  rw [pyLstrip_pyLower, pyRstrip_pyLower]

theorem pyLstrip_idem (s : Str) : pyLstrip (pyLstrip s) = pyLstrip s :=
  dropWhile_idem isPySpace s

theorem pyRstrip_idem (s : Str) : pyRstrip (pyRstrip s) = pyRstrip s := by
  unfold pyRstrip
  rw [List.reverse_reverse, dropWhile_idem]

theorem pyRstrip_isPrefix (s : Str) : pyRstrip s <+: s := by
  unfold pyRstrip
  conv_rhs => rw [← List.reverse_reverse s]
  rw [List.reverse_prefix]
  exact List.dropWhile_suffix isPySpace

theorem pyLstrip_eq_self_of_head {s : Str}
    (h : ∀ hl : 0 < s.length, ¬ isPySpace (s.get ⟨0, hl⟩) = true) :
    pyLstrip s = s := List.dropWhile_eq_self_iff.mpr h

theorem pyLstrip_pyRstrip_of_lstripped {s : Str} (h : pyLstrip s = s) :
    pyLstrip (pyRstrip s) = pyRstrip s := by
  apply pyLstrip_eq_self_of_head
  intro hl
  have hpre := pyRstrip_isPrefix s
  have hs : 0 < s.length := lt_of_lt_of_le hl hpre.length_le
  have hget : (pyRstrip s).get ⟨0, hl⟩ = s.get ⟨0, hs⟩ := by
    simp only [List.get_eq_getElem]
    exact hpre.getElem hl
  rw [hget]
  exact (List.dropWhile_eq_self_iff.mp h) hs

theorem pyStrip_idem (s : Str) : pyStrip (pyStrip s) = pyStrip s := by
  unfold pyStrip
  rw [pyLstrip_pyRstrip_of_lstripped (pyLstrip_idem s), pyRstrip_idem]

namespace FastSimilarityScorer

theorem normalize_text_idem_ascii (s : Str)
    (h : ∀ c ∈ s, c.toNat < 128) :
    normalize_text (normalize_text s) = normalize_text s := by
  have hascii : ∀ c ∈ pyStrip (pyLower s), c.toNat < 128 :=
    fun c hc => pyLower_ascii h c (pyStrip_subset _ hc)
  have h1 : normalize_text s = pyStrip (pyLower s) := by
    unfold normalize_text
    split_ifs with he
    · rw [he]; rfl
    · exact unidecodeStr_ascii hascii
  rw [h1]
  unfold normalize_text
  split_ifs with he
  · rw [he]
  · have hstep : pyLower (pyStrip (pyLower s)) = pyStrip (pyLower s) := by
      rw [← pyStrip_pyLower, pyLower_pyLower]
    have hascii2 : ∀ c ∈ pyStrip (pyLower (pyStrip (pyLower s))),
        c.toNat < 128 := by
      rw [hstep, pyStrip_idem]
      exact hascii
    rw [unidecodeStr_ascii hascii2, hstep, pyStrip_idem]

end FastSimilarityScorer

/-- The C6 scenario's LinkedIn record. -/
def johnL : LinkedInContact :=
  { full_name := "John Smith".data, email := "j.smith@acme.com".data }

/-- The C6 scenario's CRM record. -/
def jonC : CrmContact :=
  { fullname := "Jon Smith".data, emailaddress1 := "j.smith@acme.com".data }

/-- A LinkedIn record whose pair scores in the medium tier (0.6). -/
def annaL : LinkedInContact :=
  { full_name := "Anna Schmidt".data, current_position := "CEO at Acme".data }

/-- A CRM record whose pair scores in the medium tier (0.6). -/
def annaC : CrmContact :=
  { fullname := "Anna Schmidt".data, companyname := "Acme".data }

/-- **C1**: in every pipeline run (fast and multi-stage), the number of AI
Verifier invocations (`compare_contacts` calls) never exceeds the
configured `max_ai_comparisons`, and the statistics record
`pairs_skipped = max(0, |medium| − max_ai_comparisons)`. -/
theorem C1_ai_cap_enforced_and_skipped_recorded :
    ∀ (cmp : AIOracle) (maxAI : Nat)
      (highF mediumF : List ScoredCandidate)
      (highM mediumM : List MultiStageDuplicateDetector.DedupeMatch)
      (cfg : FastDuplicateDetector.Config)
      (L : List LinkedInContact) (C : List CrmContact),
    (FastDuplicateDetector.run_ai_stage cmp maxAI highF mediumF).ai_invocations
      ≤ maxAI ∧
    ((FastDuplicateDetector.run_ai_stage cmp maxAI highF
      mediumF).pairs_skipped : ℤ) =
      max 0 ((mediumF.length : ℤ) - (maxAI : ℤ)) ∧
    (MultiStageDuplicateDetector.run_ai_stage cmp maxAI highM
      mediumM).ai_invocations ≤ maxAI ∧
    ((MultiStageDuplicateDetector.run_ai_stage cmp maxAI highM
      mediumM).pairs_skipped : ℤ) =
      max 0 ((mediumM.length : ℤ) - (maxAI : ℤ)) ∧
    FastDuplicateDetector.stage3Invocations
      (FastDuplicateDetector.detect_duplicates cmp cfg L C) ≤
      cfg.max_ai_comparisons := by
  intro cmp maxAI highF mediumF highM mediumM cfg L C
  refine ⟨?_, ?_, ?_, ?_, ?_⟩
  · rw [FastDuplicateDetector.run_ai_stage_invocations, List.length_take]
    exact min_le_left _ _
  · rw [FastDuplicateDetector.run_ai_stage_skipped, List.length_take]
    omega
  · rw [MultiStageDuplicateDetector.multi_run_ai_stage_invocations, List.length_take]
    exact min_le_left _ _
  · rw [MultiStageDuplicateDetector.multi_run_ai_stage_skipped, List.length_take]
    omega
  · simp only [FastDuplicateDetector.detect_duplicates]
    split_ifs with hc
    · simp [FastDuplicateDetector.stage3Invocations]
    · simp only [FastDuplicateDetector.stage3Invocations]
      rw [FastDuplicateDetector.run_ai_stage_invocations, List.length_take]
      exact min_le_left _ _

/-- **C2**: whenever a LinkedIn record and a CRM record have full names
that normalize (under the blocking normalization) to the same string of
length at least 3, `generate_candidate_pairs` emits that pair: no false
negatives from the name-block key. -/
theorem C2_name_block_soundness (L : List LinkedInContact)
    (C : List CrmContact) (i j : Nat) (a : LinkedInContact) (b : CrmContact)
    (hi : L.get? i = some a) (hj : C.get? j = some b)
    (heq : BlockingEngine.normalize_for_blocking a.full_name =
      BlockingEngine.normalize_for_blocking (BlockingEngine.crmFullName b))
    (hlen : 3 ≤ (BlockingEngine.normalize_for_blocking a.full_name).length) :
    ∃ pr ∈ BlockingEngine.generate_candidate_pairs L C,
      pr.li = i ∧ pr.ci = j ∧ pr.linkedin_contact = a ∧ pr.crm_contact = b :=
  BlockingEngine.generate_mem_of_name L C i j a b hi hj heq hlen

/-- Witness for C2 at a concrete input: two records named "Ann Lee". -/
theorem C2_name_block_soundness_witness :
    ∃ pr ∈ BlockingEngine.generate_candidate_pairs
      [{ full_name := "Ann Lee".data }] [{ fullname := "Ann Lee".data }],
      pr.li = 0 ∧ pr.ci = 0 ∧
      pr.linkedin_contact = { full_name := "Ann Lee".data } ∧
      pr.crm_contact = { fullname := "Ann Lee".data } :=
  C2_name_block_soundness [{ full_name := "Ann Lee".data }]
    [{ fullname := "Ann Lee".data }] 0 0 _ _ (by decide) (by decide)
    (by decide) (by decide)

/-- **C3**: evaluation at the failing input.  A LinkedIn record with email
`a@gmail.com` and a CRM record with email `b@gmail.com` produce a
candidate pair whose blocking reason is the shared free-webmail domain
`gmail.com` — the denylist check `domain.endswith(('.gmail.com', ...))`
misses the bare domain, so free-webmail domains are indexed after all,
contradicting the claim (and the spec's intent). -/
theorem C3_webmail_domain_pair_emitted :
    (BlockingEngine.generate_candidate_pairs
      [{ email := "a@gmail.com".data }]
      [{ emailaddress1 := "b@gmail.com".data }]).map
      (fun p => p.blocking_reason) = ["email_domain_gmail.com".data] := by
  decide

/-- **C4** (counterexample to the claim as stated): with an AI agent that
raises on every call, the fast pipeline's `ai_rejections` is NOT empty —
`compare_contacts` swallows each exception and returns the fallback
non-duplicate verdict, which `_run_ai_stage` buckets into
`ai_rejections`; no error counter exists in the returned statistics. -/
theorem C4_counterexample_rejections_not_empty :
    FastDuplicateDetector.stage3Rejections
      (FastDuplicateDetector.detect_duplicates
        (detectorCmp (fun _ _ _ => Except.error "network failure".data)) {}
        [annaL] [annaC]) ≠ [] := by
  with_unfolding_all decide

/-- **C4** (amended): if the AI agent raises on every call, the pipeline
still returns a result (the model is a total function: `compare_contacts`
catches every exception), `ai_confirmations` is empty, and every attempted
call yields a fallback verdict recorded in `ai_rejections`, whose count —
like `pairs_processed` — equals the number of attempted calls; the
statistics retain no separate error counter. -/
theorem C4_amended_all_agent_failures (agent : AIOracle)
    (hagent : ∀ i l c, ∃ e, agent i l c = Except.error e)
    (maxAI : Nat) (high medium : List ScoredCandidate) :
    (FastDuplicateDetector.run_ai_stage (detectorCmp agent) maxAI high
      medium).ai_confirmations = [] ∧
    (FastDuplicateDetector.run_ai_stage (detectorCmp agent) maxAI high
      medium).ai_rejections.length = (medium.take maxAI).length ∧
    (FastDuplicateDetector.run_ai_stage (detectorCmp agent) maxAI high
      medium).pairs_processed = (medium.take maxAI).length :=
  FastDuplicateDetector.run_ai_stage_all_nondup (detectorCmp agent)
    (detectorCmp_all_nondup agent hagent) maxAI high medium

/-- Witness for the amended C4 at a concrete always-failing agent. -/
theorem C4_amended_all_agent_failures_witness :
    (FastDuplicateDetector.run_ai_stage
      (detectorCmp (fun _ _ _ => Except.error "boom".data)) 1000 []
      [FastSimilarityScorer.score_candidate_pair annaL
        annaC]).ai_confirmations = [] ∧
    (FastDuplicateDetector.run_ai_stage
      (detectorCmp (fun _ _ _ => Except.error "boom".data)) 1000 []
      [FastSimilarityScorer.score_candidate_pair annaL
        annaC]).ai_rejections.length =
      (([FastSimilarityScorer.score_candidate_pair annaL annaC]).take
        1000).length ∧
    (FastDuplicateDetector.run_ai_stage
      (detectorCmp (fun _ _ _ => Except.error "boom".data)) 1000 []
      [FastSimilarityScorer.score_candidate_pair annaL
        annaC]).pairs_processed =
      (([FastSimilarityScorer.score_candidate_pair annaL annaC]).take
        1000).length :=
  C4_amended_all_agent_failures (fun _ _ _ => Except.error "boom".data)
    (fun _ _ _ => ⟨"boom".data, rfl⟩) 1000 []
    [FastSimilarityScorer.score_candidate_pair annaL annaC]

/-- **C5**: given `medium_cutoff < high_cutoff`, the scoring stage
partitions the sorted scored list into three buckets: each scored pair is
in exactly one bucket, membership is exactly the threshold condition, and
the three buckets together are a permutation of the whole scored list. -/
theorem C5_tier_partition (cfg : FastDuplicateDetector.Config)
    (cands : List CandidatePair)
    (h : cfg.fast_threshold_medium < cfg.fast_threshold_high) :
    (((FastDuplicateDetector.run_scoring_stage cfg
        cands).high_confidence_pairs ++
      (FastDuplicateDetector.run_scoring_stage cfg
        cands).medium_confidence_pairs ++
      (FastDuplicateDetector.run_scoring_stage cfg
        cands).low_confidence_pairs).Perm
      (FastDuplicateDetector.scoredSorted cands)) ∧
    ∀ x ∈ FastDuplicateDetector.scoredSorted cands,
      ((x ∈ (FastDuplicateDetector.run_scoring_stage cfg
          cands).high_confidence_pairs ↔
        cfg.fast_threshold_high ≤ x.similarity_score) ∧
       (x ∈ (FastDuplicateDetector.run_scoring_stage cfg
          cands).medium_confidence_pairs ↔
        (cfg.fast_threshold_medium ≤ x.similarity_score ∧
          x.similarity_score < cfg.fast_threshold_high)) ∧
       (x ∈ (FastDuplicateDetector.run_scoring_stage cfg
          cands).low_confidence_pairs ↔
        x.similarity_score < cfg.fast_threshold_medium)) := by
  have tri : ∀ x : ScoredCandidate,
      ((decide (cfg.fast_threshold_high ≤ x.similarity_score) = true ∧
        decide (cfg.fast_threshold_medium ≤ x.similarity_score ∧
          x.similarity_score < cfg.fast_threshold_high) = false ∧
        decide (x.similarity_score < cfg.fast_threshold_medium) = false) ∨
       (decide (cfg.fast_threshold_high ≤ x.similarity_score) = false ∧
        decide (cfg.fast_threshold_medium ≤ x.similarity_score ∧
          x.similarity_score < cfg.fast_threshold_high) = true ∧
        decide (x.similarity_score < cfg.fast_threshold_medium) = false) ∨
       (decide (cfg.fast_threshold_high ≤ x.similarity_score) = false ∧
        decide (cfg.fast_threshold_medium ≤ x.similarity_score ∧
          x.similarity_score < cfg.fast_threshold_high) = false ∧
        decide (x.similarity_score < cfg.fast_threshold_medium) = true)) := by
    intro x
    rcases le_or_lt cfg.fast_threshold_high x.similarity_score with hh | hh
    · refine Or.inl ⟨by simp [hh], by simp [not_lt.mpr hh], ?_⟩
      simp only [decide_eq_false_iff_not, not_lt]
      linarith
    · rcases le_or_lt cfg.fast_threshold_medium x.similarity_score with hm | hm
      · exact Or.inr (Or.inl ⟨by simp [not_le.mpr hh], by simp [hm, hh],
          by simp [not_lt.mpr hm]⟩)
      · exact Or.inr (Or.inr ⟨by simp [not_le.mpr hh],
          by simp [not_le.mpr hm], by simp [hm]⟩)
  constructor
  · simp only [FastDuplicateDetector.run_scoring_stage]
    exact filter_three_perm _ _ _ tri _
  · intro x hx
    simp only [FastDuplicateDetector.run_scoring_stage]
    refine ⟨?_, ?_, ?_⟩ <;>
      rw [List.mem_filter] <;>
      simp only [decide_eq_true_eq] <;>
      exact ⟨fun h2 => h2.2, fun h2 => ⟨hx, h2⟩⟩

/-- Witness for C5 at the default thresholds (0.6 < 0.8) and the concrete
single-candidate list produced by blocking the C6 scenario records. -/
theorem C5_tier_partition_witness :
    (((FastDuplicateDetector.run_scoring_stage {}
        (BlockingEngine.generate_candidate_pairs [johnL]
          [jonC])).high_confidence_pairs ++
      (FastDuplicateDetector.run_scoring_stage {}
        (BlockingEngine.generate_candidate_pairs [johnL]
          [jonC])).medium_confidence_pairs ++
      (FastDuplicateDetector.run_scoring_stage {}
        (BlockingEngine.generate_candidate_pairs [johnL]
          [jonC])).low_confidence_pairs).Perm
      (FastDuplicateDetector.scoredSorted
        (BlockingEngine.generate_candidate_pairs [johnL] [jonC]))) ∧
    ∀ x ∈ FastDuplicateDetector.scoredSorted
        (BlockingEngine.generate_candidate_pairs [johnL] [jonC]),
      ((x ∈ (FastDuplicateDetector.run_scoring_stage {}
          (BlockingEngine.generate_candidate_pairs [johnL]
            [jonC])).high_confidence_pairs ↔
        (({} : FastDuplicateDetector.Config)).fast_threshold_high ≤
          x.similarity_score) ∧
       (x ∈ (FastDuplicateDetector.run_scoring_stage {}
          (BlockingEngine.generate_candidate_pairs [johnL]
            [jonC])).medium_confidence_pairs ↔
        ((({} : FastDuplicateDetector.Config)).fast_threshold_medium ≤
          x.similarity_score ∧
          x.similarity_score <
            (({} : FastDuplicateDetector.Config)).fast_threshold_high)) ∧
       (x ∈ (FastDuplicateDetector.run_scoring_stage {}
          (BlockingEngine.generate_candidate_pairs [johnL]
            [jonC])).low_confidence_pairs ↔
        x.similarity_score <
          (({} : FastDuplicateDetector.Config)).fast_threshold_medium)) :=
  C5_tier_partition {} (BlockingEngine.generate_candidate_pairs [johnL] [jonC])
    (by norm_num [FastDuplicateDetector.Config.fast_threshold_medium,
      FastDuplicateDetector.Config.fast_threshold_high])

/-- **C6**: the exact-email scenario.  LinkedIn "John Smith" /
`j.smith@acme.com` versus CRM "Jon Smith" / same email: blocking emits the
pair via the exact-email key; the scorer gives email sub-score 1.0 and the
+0.3 boost yields 137/150 ≥ 0.8; the pair lands in the high tier, the
medium tier is empty, no AI Verifier call is made, and the final high
bucket is exactly the auto-accepted scored match. -/
theorem C6_exact_email_scenario : ∀ cmp : AIOracle,
    (BlockingEngine.generate_candidate_pairs [johnL] [jonC]).map
      (fun p => (p.li, p.ci, p.blocking_reason)) =
      [(0, 0, "email_email_j.smith@acme.com".data)] ∧
    (FastSimilarityScorer.score_candidate_pair johnL
      jonC).match_details.email_score = 1 ∧
    (FastSimilarityScorer.score_candidate_pair johnL jonC).similarity_score =
      137 / 150 ∧
    (0.8 : ℚ) ≤ 137 / 150 ∧
    ((FastDuplicateDetector.run_scoring_stage {}
      (BlockingEngine.generate_candidate_pairs [johnL]
        [jonC])).high_confidence_pairs).map (fun p => p.similarity_score) =
      [137 / 150] ∧
    (FastDuplicateDetector.run_scoring_stage {}
      (BlockingEngine.generate_candidate_pairs [johnL]
        [jonC])).medium_confidence_pairs = [] ∧
    FastDuplicateDetector.stage3Invocations
      (FastDuplicateDetector.detect_duplicates cmp {} [johnL] [jonC]) = 0 ∧
    (FastDuplicateDetector.detect_duplicates cmp {} [johnL]
      [jonC]).final_results.high_confidence_matches =
      ((FastDuplicateDetector.run_scoring_stage {}
        (BlockingEngine.generate_candidate_pairs [johnL]
          [jonC])).high_confidence_pairs).map
        FastDuplicateDetector.FinalMatch.scored ∧
    ((FastDuplicateDetector.detect_duplicates cmp {} [johnL]
      [jonC]).final_results.high_confidence_matches).length = 1 := by
  intro cmp
  refine ⟨by decide, by with_unfolding_all decide,
    by with_unfolding_all decide, by norm_num,
    by with_unfolding_all decide, by with_unfolding_all decide,
    by with_unfolding_all rfl, by with_unfolding_all rfl,
    by with_unfolding_all rfl⟩

/-- **C7**: `generate_candidate_pairs` emits at most one pair per
(LinkedIn index, CRM index) identity — the emitted identities are pairwise
distinct — and every emitted pair's blocking reason is the key of the
first block (in `all_blocks` order) whose cross product contains that
identity. -/
theorem C7_dedup_and_first_reason (L : List LinkedInContact)
    (C : List CrmContact) :
    ((BlockingEngine.generate_candidate_pairs L C).map
      BlockingEngine.pairId).Nodup ∧
    ∀ pr ∈ BlockingEngine.generate_candidate_pairs L C,
      BlockingEngine.firstKeyFor (BlockingEngine.pairId pr)
        (BlockingEngine.allBlocks L C) = some pr.blocking_reason :=
  ⟨BlockingEngine.generate_nodup L C,
    fun pr h => BlockingEngine.generate_first_reason L C pr h⟩

/-- Witness for C7 at the concrete C6 records and their emitted pair. -/
theorem C7_dedup_and_first_reason_witness :
    BlockingEngine.firstKeyFor
      (BlockingEngine.pairId
        ⟨0, 0, johnL, jonC, "email_email_j.smith@acme.com".data, 0⟩)
      (BlockingEngine.allBlocks [johnL] [jonC]) =
      some "email_email_j.smith@acme.com".data :=
  (C7_dedup_and_first_reason [johnL] [jonC]).2
    ⟨0, 0, johnL, jonC, "email_email_j.smith@acme.com".data, 0⟩ (by decide)

/-- **C8** (counterexample): `BlockingEngine.normalize_for_blocking` is
not idempotent — on `"drdr"` a second application strips the honorific
prefix `dr` again. -/
theorem C8_counterexample_blocking_not_idempotent :
    BlockingEngine.normalize_for_blocking
      (BlockingEngine.normalize_for_blocking "drdr".data) ≠
      BlockingEngine.normalize_for_blocking "drdr".data := by
  decide

/-- **C8** (amended): `FastSimilarityScorer.normalize_text` is idempotent
on ASCII strings (where transliteration is the identity); the other two
normalizers are not idempotent: `DuplicateFinder.normalize_text` leaves a
double space after removing a corporate word, which a second pass
collapses, and `BlockingEngine.normalize_for_blocking` re-strips an
honorific prefix. -/
theorem C8_amended_idempotence (s : Str) (h : ∀ c ∈ s, c.toNat < 128) :
    FastSimilarityScorer.normalize_text
      (FastSimilarityScorer.normalize_text s) =
      FastSimilarityScorer.normalize_text s ∧
    DuplicateFinder.normalize_text "a gmbh b".data = some "a  b".data ∧
    DuplicateFinder.normalize_text "a  b".data = some "a b".data ∧
    BlockingEngine.normalize_for_blocking "drdr".data = "dr".data ∧
    BlockingEngine.normalize_for_blocking "dr".data = [] :=
  ⟨FastSimilarityScorer.normalize_text_idem_ascii s h, by decide, by decide,
    by decide, by decide⟩

/-- Witness for the amended C8 at a concrete ASCII string. -/
theorem C8_amended_idempotence_witness :
    FastSimilarityScorer.normalize_text
      (FastSimilarityScorer.normalize_text "  Dr. Smith ".data) =
      FastSimilarityScorer.normalize_text "  Dr. Smith ".data ∧
    DuplicateFinder.normalize_text "a gmbh b".data = some "a  b".data ∧
    DuplicateFinder.normalize_text "a  b".data = some "a b".data ∧
    BlockingEngine.normalize_for_blocking "drdr".data = "dr".data ∧
    BlockingEngine.normalize_for_blocking "dr".data = [] :=
  C8_amended_idempotence "  Dr. Smith ".data (by decide)

/-- **C9** (counterexample): the blocking normalizer returns the empty
string — not null — for blank input (its Python return type is `str`; it
cannot return `None`). -/
theorem C9_counterexample_blank_gives_empty_string :
    BlockingEngine.normalize_for_blocking " ".data = [] := by decide

/-- **C9** (amended): `DuplicateFinder.normalize_text` returns null for
null/blank input and never returns the empty string, but
`BlockingEngine.normalize_for_blocking` returns the empty string (not
null) for null/blank input. -/
theorem C9_amended_null_vs_empty :
    DuplicateFinder.normalize_text [] = none ∧
    DuplicateFinder.normalize_text " ".data = none ∧
    (∀ s t : Str, DuplicateFinder.normalize_text s = some t → t ≠ []) ∧
    BlockingEngine.normalize_for_blocking [] = [] ∧
    BlockingEngine.normalize_for_blocking " ".data = [] := by
  refine ⟨by decide, by decide, ?_, by decide, by decide⟩
  intro s t h
  simp only [DuplicateFinder.normalize_text] at h
  split_ifs at h with h1 h2
  intro ht
  exact h2 ((Option.some.inj h).trans ht)

/-- Witness for the amended C9 at a concrete input. -/
theorem C9_amended_null_vs_empty_witness : ("ab".data : Str) ≠ [] :=
  C9_amended_null_vs_empty.2.2.1 "ab".data "ab".data (by decide)

/-- **C10**: the overall similarity score and all three sub-scores of
`score_candidate_pair` lie in the closed unit interval, for every pair of
contact records (the token-overlap bonus and the +0.3 exact-email boost
are capped at 1.0, and the weights 0.4 + 0.4 + 0.2 sum to 1). -/
theorem C10_scores_in_unit_interval (l : LinkedInContact) (c : CrmContact) :
    (0 ≤ (FastSimilarityScorer.score_candidate_pair l c).similarity_score ∧
      (FastSimilarityScorer.score_candidate_pair l c).similarity_score ≤ 1) ∧
    (0 ≤ (FastSimilarityScorer.score_candidate_pair
        l c).match_details.name_score ∧
      (FastSimilarityScorer.score_candidate_pair
        l c).match_details.name_score ≤ 1) ∧
    (0 ≤ (FastSimilarityScorer.score_candidate_pair
        l c).match_details.email_score ∧
      (FastSimilarityScorer.score_candidate_pair
        l c).match_details.email_score ≤ 1) ∧
    (0 ≤ (FastSimilarityScorer.score_candidate_pair
        l c).match_details.company_score ∧
      (FastSimilarityScorer.score_candidate_pair
        l c).match_details.company_score ≤ 1) := by
  refine ⟨FastSimilarityScorer.score_candidate_pair_bounds l c, ?_, ?_, ?_⟩
  · exact FastSimilarityScorer.name_similarity_bounds _ _
  · exact FastSimilarityScorer.email_similarity_bounds _ _
  · exact FastSimilarityScorer.company_similarity_bounds _ _
